import Mathlib

/-!
Shallow embedding of the Spanish Blitz backend's play-session engine and XP
settlement ledger, translated from `src/routes/play-sessions` (part_007),
`src/routes/xp.ts` and `src/config/init-db.ts`.  Database tables become lists
of rows; each Express handler becomes a pure function from a database state
(plus explicit oracles for time and randomness) to a new database state, an
effect trace, and an HTTP-level outcome.
-/

namespace SpanishBlitz

/-- HTTP error produced via `new ApiError(status, message)`. -/
structure ApiError where
  status : Nat
  message : String
deriving DecidableEq, Repr

/-- Row of `users` (the fields the routes consult). -/
structure User where
  id : Nat
  role : String
  plan : String
  is_premium : Bool
  xp_total : Int
deriving DecidableEq, Repr

/-- Row of `cards` (only identity and owning deck matter here). -/
structure Card where
  id : Nat
  deck_id : Nat
deriving DecidableEq, Repr

/-- Lifecycle status of `play_sessions.status`. -/
inductive Status where
  | pending
  | active
  | completed
  | cancelled
deriving DecidableEq, Repr

/-- Per-player state of `play_session_players.state`. -/
inductive PState where
  | playing
  | finished
deriving DecidableEq, Repr

/-- Row of `play_sessions`. -/
structure Session where
  id : Nat
  code : String
  deck_id : Nat
  is_teacher : Bool
  host_user_id : Nat
  question_count : Nat
  time_limit_seconds : Option Nat
  status : Status
  started_at : Option Nat
  ends_at : Option Nat
  is_finalized : Bool
deriving DecidableEq, Repr

/-- Row of `play_session_players`. -/
structure Player where
  id : Nat
  session_id : Nat
  user_id : Nat
  score : Int
  state : PState
  is_host : Bool
deriving DecidableEq, Repr

/-- Row of `play_session_questions`. -/
structure Question where
  id : Nat
  session_id : Nat
  card_id : Nat
  position : Nat
  points_correct : Int
  points_incorrect : Int
deriving DecidableEq, Repr

/-- Row of `play_session_answers`. -/
structure Answer where
  id : Nat
  session_id : Nat
  player_id : Nat
  question_id : Nat
  is_correct : Bool
  points_awarded : Int
  answer_text : Option String
deriving DecidableEq, Repr

/-- Row of `xp_events` (the reward ledger). -/
structure XpEvent where
  user_id : Nat
  mode : String
  xp_earned : Int
  challenge_id : Option Nat
  assignment_id : Option Nat
deriving DecidableEq, Repr

/-- Row of `assignments` (goals with an XP threshold and optional bonus). -/
structure Assignment where
  id : Nat
  classroom_id : Nat
  xp_goal : Option Int
  xp_reward : Option Int
deriving DecidableEq, Repr

/-- Row of `classroom_memberships`. -/
structure Membership where
  classroom_id : Nat
  student_id : Nat
  is_active : Bool
deriving DecidableEq, Repr

/-- Row of `assignment_students` (explicit targeting of an assignment). -/
structure AssignmentStudent where
  assignment_id : Nat
  student_id : Nat
deriving DecidableEq, Repr

/-- Row of `assignment_submissions` (per (goal, participant) progress). -/
structure Submission where
  assignment_id : Nat
  student_id : Nat
  xp_earned : Int
  completed_at : Option Nat
deriving DecidableEq, Repr

/-- The whole persistent store, plus a fresh-id counter for inserted rows. -/
structure DB where
  users : List User
  cards : List Card
  sessions : List Session
  players : List Player
  questions : List Question
  answers : List Answer
  xp_events : List XpEvent
  assignments : List Assignment
  memberships : List Membership
  assignment_students : List AssignmentStudent
  submissions : List Submission
  next_id : Nat
deriving DecidableEq, Repr

/-- Observable side effects of a handler, in execution order. -/
inductive Eff where
  | insertAnswer (answerId playerId questionId : Nat)
  | addScore (playerId : Nat) (points : Int)
  | flipFinished (playerId : Nat)
  | completeSession (sessionId : Nat)
  | broadcast (sessionId : Nat)
deriving DecidableEq, Repr

/-- Result of one handler call: new store, effect trace, HTTP outcome. -/
structure StepResult (α : Type) where
  db : DB
  trace : List Eff
  out : Except ApiError α
deriving Repr

/-- `SELECT ... FROM play_sessions WHERE id = sid LIMIT 1`. -/
def findSession (db : DB) (sid : Nat) : Option Session :=
  db.sessions.find? (fun s => s.id == sid)

/-- `SELECT ... FROM play_sessions WHERE code = c LIMIT 1`. -/
def findSessionByCode (db : DB) (c : String) : Option Session :=
  db.sessions.find? (fun s => s.code == c)

/-- `SELECT ... FROM play_session_players WHERE session_id = sid AND user_id = uid LIMIT 1`. -/
def findPlayer (db : DB) (sid uid : Nat) : Option Player :=
  db.players.find? (fun p => p.session_id == sid && p.user_id == uid)

/-- `SELECT count(*) FROM play_session_players WHERE session_id = sid`. -/
def playersCount (db : DB) (sid : Nat) : Nat :=
  (db.players.filter (fun p => p.session_id == sid)).length

/-- Number of answers recorded for a given player row. -/
def answeredCount (db : DB) (pid : Nat) : Nat :=
  (db.answers.filter (fun a => a.player_id == pid)).length

/-- Number of question rows of a session. -/
def questionsCount (db : DB) (sid : Nat) : Nat :=
  (db.questions.filter (fun q => q.session_id == sid)).length

/-- Answers persisted for one (player row, question) pair. -/
def answersFor (db : DB) (pid qid : Nat) : List Answer :=
  db.answers.filter (fun a => a.player_id == pid && a.question_id == qid)

/-- `UPDATE play_sessions SET status = st WHERE id = sid`. -/
def setSessionStatus (db : DB) (sid : Nat) (st : Status) : DB :=
  { db with sessions := db.sessions.map (fun s => if s.id == sid then { s with status := st } else s) }

/-- Score of the player row `pid` (0 when absent). -/
def scoreOf (db : DB) (pid : Nat) : Int :=
  match db.players.find? (fun p => p.id == pid) with
  | some p => p.score
  | none => 0

/-- State of the player row `pid` (`playing` when absent). -/
def stateOf (db : DB) (pid : Nat) : PState :=
  match db.players.find? (fun p => p.id == pid) with
  | some p => p.state
  | none => PState.playing

/-- Status of session `sid` (`cancelled` when absent). -/
def statusOf (db : DB) (sid : Nat) : Status :=
  match findSession db sid with
  | some s => s.status
  | none => Status.cancelled

/-- JavaScript's `String.prototype.toUpperCase` on ASCII data, modelled
character by character. -/
def strToUpper (s : String) : String := ⟨s.data.map Char.toUpper⟩

/-- `const genCode = () => nanoid(CODE_LENGTH).toUpperCase()` applied to one
random draw supplied by the caller (the `nanoid(6)` oracle). -/
def genCode (draw : String) : String := strToUpper draw

/-- Response shape of `buildState` (session header, roster, question list
with correct answers withheld from a teacher host, requester's answers). -/
structure SessionState where
  session : Option Session
  players : List Player
  questions : List Question
  totalQuestions : Nat
  currentPlayerAnswers : List Answer
deriving DecidableEq, Repr

/-- `async function buildState(sessionId, currentUserId)` from the
play-sessions routes: assembles the state payload returned to one requester. -/
def buildState (db : DB) (sessionId currentUserId : Nat) : SessionState :=
  let sessionRow := findSession db sessionId
  let playerRows := db.players.filter (fun p => p.session_id == sessionId)
  let questionRows := db.questions.filter (fun q => q.session_id == sessionId)
  let answerRows :=
    match findPlayer db sessionId currentUserId with
    | some p => db.answers.filter (fun a => a.session_id == sessionId && a.player_id == p.id)
    | none => []
  let isTeacherHost :=
    match sessionRow with
    | some s => s.is_teacher && s.host_user_id == currentUserId
    | none => false
  { session := sessionRow
    players := playerRows
    questions := if isTeacherHost then [] else questionRows
    totalQuestions := questionRows.length
    currentPlayerAnswers := answerRows }

/-- Response of `POST /api/play-sessions`. -/
structure CreateRes where
  sessionId : Nat
  code : String
  questionCount : Nat
  timeLimitSeconds : Option Nat
deriving DecidableEq, Repr

/-- `POST /api/play-sessions`: create a session.  `shuffle` stands for the
`ORDER BY random()` oracle (a permutation of the deck's cards) and `draw` for
the single `nanoid(6)` draw consumed by `genCode`. -/
def createSession (db : DB) (user : User) (deckId : Option Nat)
    (rawQuestionCount rawTimeLimitMinutes : Int) (isTeacher : Bool)
    (shuffle : List Card → List Card) (draw : String) : StepResult CreateRes :=
  if !(user.is_premium || user.plan == "premium" || user.role == "admin") then
    ⟨db, [], .error ⟨403, "Only premium users can create challenges"⟩⟩
  else
    let timeLimitMinutes : Int := max 0 (min rawTimeLimitMinutes 60)
    let questionCount : Int := max 1 (min rawQuestionCount 50)
    match deckId with
    | none => ⟨db, [], .error ⟨400, "deckId is required"⟩⟩
    | some did =>
      let cards := (shuffle (db.cards.filter (fun c => c.deck_id == did))).take questionCount.toNat
      if cards.length == 0 then
        ⟨db, [], .error ⟨400, "Deck has no cards"⟩⟩
      else
        let finalQuestionCount := min questionCount.toNat cards.length
        let code := genCode draw
        let timeLimitSeconds : Option Nat :=
          if timeLimitMinutes == 0 then none else some (timeLimitMinutes.toNat * 60)
        let selectedCards := cards.take finalQuestionCount
        let sid := db.next_id
        let session : Session :=
          { id := sid, code := code, deck_id := did, is_teacher := isTeacher
            host_user_id := user.id, question_count := finalQuestionCount
            time_limit_seconds := timeLimitSeconds, status := .pending
            started_at := none, ends_at := none, is_finalized := false }
        let db1 : DB := { db with sessions := db.sessions ++ [session], next_id := db.next_id + 1 }
        let hostPlayer : Player :=
          { id := db1.next_id, session_id := sid, user_id := user.id
            score := 0, state := if isTeacher then .finished else .playing, is_host := true }
        let db2 : DB :=
          match findPlayer db1 sid user.id with
          | some _ => db1
          | none => { db1 with players := db1.players ++ [hostPlayer], next_id := db1.next_id + 1 }
        let db3 : DB :=
          { db2 with
            questions := db2.questions ++
              (List.range selectedCards.length).zipWith
                (fun i c => { id := db2.next_id + i, session_id := sid, card_id := c.id
                              position := i + 1, points_correct := 2, points_incorrect := -1 })
                selectedCards
            next_id := db2.next_id + selectedCards.length }
        ⟨db3, [.broadcast sid],
          .ok { sessionId := sid, code := code, questionCount := finalQuestionCount
                timeLimitSeconds := timeLimitSeconds }⟩

/-- `POST /api/play-sessions/join`: join a session by code. -/
def joinSession (db : DB) (user : User) (rawCode : String) : StepResult SessionState :=
  let code := strToUpper rawCode
  if code == "" then
    ⟨db, [], .error ⟨400, "Code is required"⟩⟩
  else
    match findSessionByCode db code with
    | none => ⟨db, [], .error ⟨404, "Session not found"⟩⟩
    | some session =>
      if session.status == .completed || session.status == .cancelled then
        ⟨db, [], .error ⟨400, "Session is not active"⟩⟩
      else if 30 ≤ playersCount db session.id then
        ⟨db, [], .error ⟨400, "Session is full (max 30 players)"⟩⟩
      else
        let db1 : DB :=
          match findPlayer db session.id user.id with
          | some _ => db
          | none =>
            { db with
              players := db.players ++
                [{ id := db.next_id, session_id := session.id, user_id := user.id
                   score := 0, state := .playing, is_host := session.host_user_id == user.id }]
              next_id := db.next_id + 1 }
        ⟨db1, [.broadcast session.id], .ok (buildState db1 session.id user.id)⟩

/-- Response of `POST /api/play-sessions/:id/start`. -/
structure StartRes where
  started_at : Nat
  ends_at : Option Nat
deriving DecidableEq, Repr

/-- `POST /api/play-sessions/:id/start`: start a pending session.  `now` is
the current time in milliseconds. -/
def startSession (db : DB) (now : Nat) (user : User) (sessionId : Nat) : StepResult StartRes :=
  match findSession db sessionId with
  | none => ⟨db, [], .error ⟨404, "Session not found"⟩⟩
  | some session =>
    if session.host_user_id != user.id && user.role != "admin" then
      ⟨db, [], .error ⟨403, "Only host or admin can start the session"⟩⟩
    else if session.status != .pending then
      ⟨db, [], .error ⟨400, "Session already started or finished"⟩⟩
    else if playersCount db sessionId < 2 then
      ⟨db, [], .error ⟨400, "Need at least 2 players to start"⟩⟩
    else
      let endsAt : Option Nat :=
        match session.time_limit_seconds with
        | some t => if t == 0 then none else some (now + t * 1000)
        | none => none
      let db1 : DB :=
        { db with sessions := db.sessions.map (fun s =>
            if s.id == sessionId then
              { s with status := .active, started_at := some now, ends_at := endsAt }
            else s) }
      ⟨db1, [.broadcast sessionId], .ok { started_at := now, ends_at := endsAt }⟩

/-- `function xpForRank(rank, participated)` from `src/routes/xp.ts`. -/
def xpForRank (rank : Int) (participated : Bool) : Int :=
  if !participated then 0
  else if rank == 1 then 10
  else if rank == 2 then 5
  else if rank == 3 then 4
  else if rank == 4 then 3
  else if rank == 5 then 2
  else 1

/-- How the validation phase of `POST /api/play-sessions/:id/answer` aborts:
a plain failure, or the expired-time path that first force-completes the
session and then fails. -/
inductive SubmitHalt where
  | fail (e : ApiError)
  | expire (e : ApiError)
deriving DecidableEq, Repr

/-- The read/validation phase of the answer handler (everything up to and
including the `play_session_answers` existence check), exactly in source
order.  Returns the session row, the caller's player row and the points to
award. -/
def submitChecks (db : DB) (now : Nat) (user : User) (sessionId questionId : Nat)
    (isCorrect : Bool) : Except SubmitHalt (Session × Player × Int) :=
  if questionId == 0 then .error (.fail ⟨400, "questionId is required"⟩)
  else
    match findSession db sessionId with
    | none => .error (.fail ⟨404, "Session not found"⟩)
    | some session =>
      if session.status == .pending then
        .error (.fail ⟨400, "Session has not started yet"⟩)
      else if session.status == .completed || session.status == .cancelled then
        .error (.fail ⟨400, "Session is not active"⟩)
      else if (match session.ends_at with | some t => decide (t < now) | none => false) then
        .error (.expire ⟨400, "Session time is over"⟩)
      else
        match findPlayer db sessionId user.id with
        | none => .error (.fail ⟨403, "You are not in this session"⟩)
        | some player =>
          if session.is_teacher && session.host_user_id == user.id then
            .error (.fail ⟨400, "Teacher/host cannot answer"⟩)
          else
            let pointsAwarded : Int := if isCorrect then 2 else -1
            match db.questions.find? (fun q => q.id == questionId && q.session_id == sessionId) with
            | none => .error (.fail ⟨404, "Question not found in this session"⟩)
            | some _ =>
              if (db.answers.filter (fun a => a.question_id == questionId && a.player_id == player.id)).length > 0 then
                .error (.fail ⟨400, "Question already answered"⟩)
              else
                .ok (session, player, pointsAwarded)

/-- The write phase of the answer handler: insert the Answer, add the points
to the player's score, flip the player to `finished` when their answer count
has reached the session's question count, complete the session when no
countable player is still `playing`, in that order. -/
def submitEffects (db : DB) (session : Session) (player : Player)
    (sessionId questionId : Nat) (isCorrect : Bool) (pointsAwarded : Int)
    (answerText : Option String) : DB × List Eff :=
  let answerId := db.next_id
  let db1 : DB :=
    { db with
      answers := db.answers ++
        [{ id := answerId, session_id := sessionId, player_id := player.id
           question_id := questionId, is_correct := isCorrect
           points_awarded := pointsAwarded, answer_text := answerText }]
      next_id := db.next_id + 1 }
  let db2 : DB :=
    { db1 with players := db1.players.map (fun p =>
        if p.id == player.id then { p with score := p.score + pointsAwarded } else p) }
  let flip : Bool := questionsCount db2 sessionId ≤ answeredCount db2 player.id
  let db3 : DB :=
    { db2 with players := db2.players.map (fun p =>
        if p.id == player.id && flip then { p with state := .finished } else p) }
  let remaining :=
    (db3.players.filter (fun p =>
      p.session_id == sessionId && p.state == .playing
        && !(p.is_host && session.is_teacher))).length
  let db4 : DB := if remaining == 0 then setSessionStatus db3 sessionId .completed else db3
  (db4,
    [.insertAnswer answerId player.id questionId, .addScore player.id pointsAwarded]
      ++ (if flip then [.flipFinished player.id] else [])
      ++ (if remaining == 0 then [.completeSession sessionId] else []))

/-- `POST /api/play-sessions/:id/answer`: the full sequential handler, the
validation phase followed by the write phase and the broadcast. -/
def submitAnswer (db : DB) (now : Nat) (user : User) (sessionId questionId : Nat)
    (isCorrect : Bool) (answerText : Option String) : StepResult Int :=
  match submitChecks db now user sessionId questionId isCorrect with
  | .error (.fail e) => ⟨db, [], .error e⟩
  | .error (.expire e) => ⟨setSessionStatus db sessionId .completed, [], .error e⟩
  | .ok (session, player, pointsAwarded) =>
    let (db1, effs) := submitEffects db session player sessionId questionId isCorrect pointsAwarded answerText
    ⟨db1, effs ++ [.broadcast sessionId], .ok pointsAwarded⟩

/-- `SELECT ... FROM assignment_submissions WHERE assignment_id = aid AND student_id = uid`
(at most one row by the table's unique key). -/
def findSubmission (db : DB) (aid uid : Nat) : Option Submission :=
  db.submissions.find? (fun s => s.assignment_id == aid && s.student_id == uid)

/-- The eligibility filter of the assignment query inside
`updateAssignmentXpProgress`: active classroom membership, a positive
`xp_goal`, not yet completed (or still short of the goal), and either
explicitly targeted at the user or targeted at nobody in particular. -/
def assignmentEligible (db : DB) (userId : Nat) (a : Assignment) : Bool :=
  (db.memberships.any (fun m =>
      m.classroom_id == a.classroom_id && m.student_id == userId && m.is_active))
    && (match a.xp_goal with | some g => 0 < g | none => false)
    && (match findSubmission db a.id userId with
        | some s => s.completed_at == none || s.xp_earned < a.xp_goal.getD 0
        | none => true)
    && ((db.assignment_students.any (fun t => t.assignment_id == a.id && t.student_id == userId))
        || !(db.assignment_students.any (fun t => t.assignment_id == a.id)))

/-- One iteration of the assignment loop in `updateAssignmentXpProgress`:
upsert the submission row and, when the goal was just completed and carries a
positive bonus, append the bonus `xp_events` row and credit the user. -/
def processAssignment (userId : Nat) (xpEarned : Int) (now : Nat) (db : DB)
    (item : Assignment × Option Submission) : DB :=
  let a := item.1
  let snap := item.2
  let goal := a.xp_goal.getD 0
  let newXpProgress := (match snap with | some s => s.xp_earned | none => 0) + xpEarned
  let isNowCompleted := goal ≤ newXpProgress
  let completedTimestamp : Option Nat := if isNowCompleted then some now else none
  let db1 : DB :=
    match findSubmission db a.id userId with
    | none =>
      { db with submissions := db.submissions ++
          [{ assignment_id := a.id, student_id := userId
             xp_earned := newXpProgress, completed_at := completedTimestamp }] }
    | some _ =>
      { db with submissions := db.submissions.map (fun s =>
          if s.assignment_id == a.id && s.student_id == userId then
            { s with
              xp_earned := s.xp_earned + xpEarned
              completed_at :=
                if goal ≤ s.xp_earned + xpEarned && s.completed_at == none
                then some now else s.completed_at }
          else s) }
  let snapCompleted : Option Nat := match snap with | some s => s.completed_at | none => none
  let reward := a.xp_reward.getD 0
  if isNowCompleted && snapCompleted == none && 0 < reward then
    { db1 with
      xp_events := db1.xp_events ++
        [{ user_id := userId, mode := "assignment", xp_earned := reward
           challenge_id := none, assignment_id := some a.id }]
      users := db1.users.map (fun u =>
        if u.id == userId then { u with xp_total := u.xp_total + reward } else u) }
  else db1

/-- `async function updateAssignmentXpProgress(userId, xpEarned)` from
`src/routes/xp.ts`: select the user's open XP-goal assignments (with a
snapshot of their submission rows), then roll `xpEarned` into each. -/
def updateAssignmentXpProgress (db : DB) (now userId : Nat) (xpEarned : Int) : DB :=
  let selected :=
    (db.assignments.filter (assignmentEligible db userId)).map
      (fun a => (a, findSubmission db a.id userId))
  selected.foldl (processAssignment userId xpEarned now) db

/-- One entry of the `results` array posted to the finalize route. -/
structure RankedResult where
  userId : Nat
  rank : Int
  participated : Bool
deriving DecidableEq, Repr

/-- One entry of the `payouts` array returned by the finalize route. -/
structure Payout where
  userId : Nat
  rank : Int
  xpEarned : Int
deriving DecidableEq, Repr

/-- Successful outcomes of the finalize route: the 409 already-finalized
response, or the payout list. -/
inductive FinalizeOut where
  | conflict
  | done (payouts : List Payout)
deriving DecidableEq, Repr

/-- Count of `challenge_rank` ledger rows for one (participant, session):
`xp_events` with mode `blitz_challenge` and this `challenge_id`. -/
def blitzEventCount (db : DB) (uid chId : Nat) : Nat :=
  (db.xp_events.filter (fun e =>
    e.user_id == uid && e.mode == "blitz_challenge" && e.challenge_id == some chId)).length

/-- One iteration of the results loop in the finalize route: skip falsy user
ids, compute `xpForRank`, insert the guarded `blitz_challenge` event
(`ON CONFLICT (user_id, mode, challenge_id) DO NOTHING` against the
`xp_events_blitz_challenge_unique` constraint), credit the user's total, and
roll the payout into goal progress. -/
def processResult (chId now : Nat) (acc : DB × List Payout) (r : RankedResult) :
    DB × List Payout :=
  let db := acc.1
  if r.userId == 0 then acc
  else
    let xpEarned := xpForRank r.rank r.participated
    let db1 : DB :=
      if 0 < xpEarned then
        let db' : DB :=
          if db.xp_events.any (fun e =>
              e.user_id == r.userId && e.mode == "blitz_challenge"
                && e.challenge_id == some chId) then db
          else
            { db with xp_events := db.xp_events ++
                [{ user_id := r.userId, mode := "blitz_challenge", xp_earned := xpEarned
                   challenge_id := some chId, assignment_id := none }] }
        { db' with users := db'.users.map (fun u =>
            if u.id == r.userId then { u with xp_total := u.xp_total + xpEarned } else u) }
      else db
    let payouts := acc.2 ++ [{ userId := r.userId, rank := r.rank, xpEarned := xpEarned }]
    let db2 := if 0 < xpEarned then updateAssignmentXpProgress db1 now r.userId xpEarned else db1
    (db2, payouts)

/-- `POST /api/xp/blitz-challenge/finalize` from `src/routes/xp.ts`. -/
def finalizeChallenge (db : DB) (now : Nat) (user : User) (challengeId : Nat)
    (results : List RankedResult) : StepResult FinalizeOut :=
  if challengeId == 0 then
    ⟨db, [], .error ⟨400, "challengeId and results array are required"⟩⟩
  else
    match findSession db challengeId with
    | none => ⟨db, [], .error ⟨404, "Challenge not found"⟩⟩
    | some session =>
      if session.host_user_id != user.id && user.role != "admin" then
        ⟨db, [], .error ⟨403, "Only host or admin can finalize the challenge"⟩⟩
      else if session.is_finalized then
        ⟨db, [], .ok .conflict⟩
      else
        let db1 : DB :=
          { db with sessions := db.sessions.map (fun s =>
              if s.id == challengeId then { s with is_finalized := true } else s) }
        let (db2, payouts) := results.foldl (processResult challengeId now) (db1, [])
        ⟨db2, [.broadcast challengeId], .ok (.done payouts)⟩

/-- Players of a session still in the `playing` state (no host exclusion);
the reading used by the specification's completion condition. -/
def playingCount (db : DB) (sid : Nat) : Nat :=
  (db.players.filter (fun p => p.session_id == sid && p.state == PState.playing)).length

/-- Player row looked up by its own id. -/
def playerById (db : DB) (pid : Nat) : Option Player :=
  db.players.find? (fun p => p.id == pid)

/-! ### Shared concrete fixtures for witnesses and counterexamples -/

/-- A premium host user. -/
def hostUser : User := ⟨7, "user", "premium", true, 0⟩

/-- A free (non-premium) participant. -/
def guestUser : User := ⟨8, "user", "free", false, 0⟩

/-- An active two-question session hosted by `hostUser`. -/
def baseSession : Session := ⟨1, "ABC123", 1, false, 7, 2, none, .active, some 0, none, false⟩

/-- A store with one active session, the host and one guest both playing,
and two questions. -/
def baseDB : DB :=
  ⟨[hostUser, guestUser], [⟨11, 1⟩], [baseSession],
   [⟨2, 1, 7, 0, .playing, true⟩, ⟨3, 1, 8, 0, .playing, false⟩],
   [⟨4, 1, 11, 1, 2, -1⟩, ⟨5, 1, 11, 2, 2, -1⟩], [], [], [], [], [], [], 6⟩

/-! ### Generic list lemmas -/

/-- `find?` commutes with a `map` that does not disturb the predicate. -/
theorem find?_map_comm {α : Type} (l : List α) (f : α → α) (q : α → Bool)
    (h : ∀ a, q (f a) = q a) : (l.map f).find? q = (l.find? q).map f := by
  induction l with
  | nil => rfl
  | cons a l ih =>
    simp only [List.map_cons]
    cases hq : q a with
    | false =>
      rw [List.find?_cons_of_neg, List.find?_cons_of_neg]
      · exact ih
      · simp [hq]
      · simp [h a, hq]
    | true =>
      rw [List.find?_cons_of_pos, List.find?_cons_of_pos]
      · rfl
      · simp [hq]
      · simp [h a, hq]

/-- A fold preserves any invariant its step function preserves. -/
theorem foldl_preserve {α β : Type} (f : β → α → β) (P : β → Prop)
    (h : ∀ b a, P b → P (f b a)) : ∀ (l : List α) (b : β), P b → P (l.foldl f b)
  | [], _, hb => hb
  | a :: l, b, hb => foldl_preserve f P h l (f b a) (h b a hb)

/-! ### C10: session creation is entitlement-gated -/

/-- C10: a caller who is neither premium (`is_premium` or plan `premium`)
nor an administrator gets a 403 from session creation, with no persisted
state change, no broadcast, and before any clamping or sampling (the outcome
is the same for every body and every sampling oracle). -/
theorem createSession_requires_entitlement (db : DB) (user : User) (deckId : Option Nat)
    (rawQuestionCount rawTimeLimitMinutes : Int) (isTeacher : Bool)
    (shuffle : List Card → List Card) (draw : String)
    (h : ¬(user.is_premium = true ∨ user.plan = "premium" ∨ user.role = "admin")) :
    createSession db user deckId rawQuestionCount rawTimeLimitMinutes isTeacher shuffle draw =
      ⟨db, [], .error ⟨403, "Only premium users can create challenges"⟩⟩ := by
  push_neg at h
  obtain ⟨h1, h2, h3⟩ := h
  simp only [createSession, h1, h2, h3]
  simp [h1, h2, h3]

/-- Witness for C10 at a concrete free user. -/
theorem createSession_requires_entitlement_witness :
    createSession baseDB guestUser (some 1) 10 0 false id "abc123" =
      ⟨baseDB, [], .error ⟨403, "Only premium users can create challenges"⟩⟩ :=
  createSession_requires_entitlement baseDB guestUser (some 1) 10 0 false id "abc123"
    (by simp [guestUser])

/-! ### C7: payout rule by rank -/

/-- The payout list produced by the finalize results loop: one entry per
result with a truthy user id, valued by `xpForRank`. -/
theorem processResult_payouts (chId now : Nat) (rs : List RankedResult) :
    ∀ (d : DB) (ps : List Payout),
      (rs.foldl (processResult chId now) (d, ps)).2
        = ps ++ (rs.filter (fun r => !(r.userId == 0))).map
            (fun r => { userId := r.userId, rank := r.rank
                        xpEarned := xpForRank r.rank r.participated }) := by
  induction rs with
  | nil => intro d ps; simp
  | cons r rs ih =>
    intro d ps
    simp only [List.foldl_cons, List.filter_cons]
    by_cases h : r.userId = 0
    · simp only [processResult, h]
      simp [ih]
    · have hb : (r.userId == 0) = false := by simp [h]
      simp only [processResult, hb]
      simp only [Bool.false_eq_true, if_false, Bool.not_false, if_true]
      rw [ih]
      simp

/-- C7: for every finalize call the payout of each results entry is 0 when
the participation flag is false and otherwise depends only on rank
(1 → 10, 2 → 5, 3 → 4, 4 → 3, 5 → 2, other → 1); the returned payout list
values every entry by this rule, and the concrete scenario
[{rank 1, participated}, {rank 2, participated}, {rank 7, participated},
{rank 3, not participated}] yields payouts [10, 5, 1, 0]. -/
theorem finalize_payout_rule :
    (∀ r : Int, xpForRank r false = 0) ∧
    (xpForRank 1 true = 10 ∧ xpForRank 2 true = 5 ∧ xpForRank 3 true = 4 ∧
      xpForRank 4 true = 3 ∧ xpForRank 5 true = 2) ∧
    (∀ r : Int, r ≠ 1 → r ≠ 2 → r ≠ 3 → r ≠ 4 → r ≠ 5 → xpForRank r true = 1) ∧
    (∀ (db : DB) (now : Nat) (user : User) (chId : Nat)
        (rs : List RankedResult) (ps : List Payout),
      (finalizeChallenge db now user chId rs).out = Except.ok (FinalizeOut.done ps) →
      ps = (rs.filter (fun r => !(r.userId == 0))).map
        (fun r => { userId := r.userId, rank := r.rank
                    xpEarned := xpForRank r.rank r.participated })) ∧
    ((finalizeChallenge baseDB 200 hostUser 1
        [⟨21, 1, true⟩, ⟨22, 2, true⟩, ⟨23, 7, true⟩, ⟨24, 3, false⟩]).out =
      Except.ok (FinalizeOut.done
        [⟨21, 1, 10⟩, ⟨22, 2, 5⟩, ⟨23, 7, 1⟩, ⟨24, 3, 0⟩])) := by
  refine ⟨?_, ⟨by decide, by decide, by decide, by decide, by decide⟩, ?_, ?_, by rfl⟩
  · intro r; simp [xpForRank]
  · intro r h1 h2 h3 h4 h5
    simp [xpForRank, h1, h2, h3, h4, h5]
  · intro db now user chId rs ps h
    simp only [finalizeChallenge] at h
    split at h
    · simp at h
    · split at h
      · simp at h
      · split at h
        · simp at h
        · split at h
          · simp at h
          · simp only [StepResult.mk.injEq] at h
            have := processResult_payouts chId now rs
              { db with sessions := db.sessions.map (fun s =>
                  if s.id == chId then { s with is_finalized := true } else s) } []
            simp only [Except.ok.injEq, FinalizeOut.done.injEq] at h
            rw [← h]
            simpa using this

/-- Witness for C7: rank 7 with participation pays 1, and the concrete
finalize scenario produces payouts [10, 5, 1, 0]. -/
theorem finalize_payout_rule_witness :
    xpForRank 7 true = 1 ∧
    (finalizeChallenge baseDB 200 hostUser 1
        [⟨21, 1, true⟩, ⟨22, 2, true⟩, ⟨23, 7, true⟩, ⟨24, 3, false⟩]).out =
      Except.ok (FinalizeOut.done
        [⟨21, 1, 10⟩, ⟨22, 2, 5⟩, ⟨23, 7, 1⟩, ⟨24, 3, 0⟩]) :=
  ⟨finalize_payout_rule.2.2.1 7 (by decide) (by decide) (by decide) (by decide) (by decide),
   finalize_payout_rule.2.2.2.2⟩

/-! ### C3: join-code generation -/

/-- A store holding one premium user and a one-card deck, with no sessions
yet. -/
def dbSeed : DB := ⟨[hostUser], [⟨11, 1⟩], [], [], [], [], [], [], [], [], [], 1⟩

/-- C3 is false on the code: `genCode` makes a single `nanoid` draw with no
check against existing sessions and no retry loop, so two session creations
whose draws collide both succeed and persist the same join code — persisted
join codes are not all distinct. -/
theorem joinCode_not_unique_counterexample :
    (let r1 := createSession dbSeed hostUser (some 1) 10 0 false id "abc123"
     let r2 := createSession r1.db hostUser (some 1) 10 0 false id "abc123"
     r1.out.isOk = true ∧ r2.out.isOk = true ∧
       r2.db.sessions.map Session.code = [genCode "abc123", genCode "abc123"] ∧
       ¬ (r2.db.sessions.map Session.code).Nodup) := by
  refine ⟨rfl, rfl, rfl, ?_⟩
  intro hnd
  rw [show (let r1 := createSession dbSeed hostUser (some 1) 10 0 false id "abc123"
            let r2 := createSession r1.db hostUser (some 1) 10 0 false id "abc123"
            r2.db.sessions.map Session.code) = [genCode "abc123", genCode "abc123"] from rfl] at hnd
  simp [List.Nodup] at hnd

/-- C3 amended: session creation generates the join code by uppercasing a
single fixed-length random draw, without any uniqueness check against
existing sessions or retry loop; every successful create persists exactly
one new session whose code is that single uppercased draw, so distinctness
of persisted codes holds only as far as the random draws themselves are
distinct. -/
theorem createSession_code_single_draw (db : DB) (user : User) (deckId : Option Nat)
    (rawQuestionCount rawTimeLimitMinutes : Int) (isTeacher : Bool)
    (shuffle : List Card → List Card) (draw : String) (res : CreateRes)
    (h : (createSession db user deckId rawQuestionCount rawTimeLimitMinutes
            isTeacher shuffle draw).out = .ok res) :
    res.code = genCode draw ∧
    (createSession db user deckId rawQuestionCount rawTimeLimitMinutes
        isTeacher shuffle draw).db.sessions.map Session.code =
      db.sessions.map Session.code ++ [genCode draw] := by
  revert h
  simp only [createSession]
  split
  · intro h; simp at h
  · split
    · intro h; simp at h
    · split
      · intro h; simp at h
      · intro h
        simp only [Except.ok.injEq] at h
        subst h
        refine ⟨rfl, ?_⟩
        split <;> simp

/-- Witness for C3 amended at a concrete creation. -/
theorem createSession_code_single_draw_witness :
    (⟨1, genCode "abc123", 1, none⟩ : CreateRes).code = genCode "abc123" ∧
    (createSession dbSeed hostUser (some 1) 10 0 false id "abc123").db.sessions.map Session.code =
      dbSeed.sessions.map Session.code ++ [genCode "abc123"] :=
  createSession_code_single_draw dbSeed hostUser (some 1) 10 0 false id "abc123"
    ⟨1, genCode "abc123", 1, none⟩ rfl

/-! ### C8: join idempotency -/

/-- `baseDB` with the session at the 30-player cap; user 105 is one of the
30 players. -/
def dbFull : DB :=
  { baseDB with players := (List.range 30).map (fun i => ⟨10 + i, 1, 100 + i, 0, .playing, false⟩) }

/-- C8 is false on the code: the 30-player cap is checked before the
existing-membership no-op, so a participant who is already in a full (but
not completed/cancelled) session gets `Session is full` on a second join
instead of the current state. -/
theorem join_full_blocks_rejoin_counterexample :
    (findPlayer dbFull 1 105).isSome = true ∧
    statusOf dbFull 1 = Status.active ∧
    playersCount dbFull 1 = 30 ∧
    (joinSession dbFull ⟨105, "user", "free", false, 0⟩ "ABC123").out =
      Except.error ⟨400, "Session is full (max 30 players)"⟩ ∧
    (joinSession dbFull ⟨105, "user", "free", false, 0⟩ "ABC123").db = dbFull :=
  ⟨rfl, rfl, rfl, rfl, rfl⟩

/-- C8 amended: for a session that is not completed/cancelled and holds
fewer than 30 player rows, a join by a participant who already has a Player
row is a no-op: it returns the current session state, inserts no row and
leaves the store unchanged (only the refresh broadcast is emitted). -/
theorem joinSession_idempotent (db : DB) (user : User) (rawCode : String) (session : Session)
    (hne : (strToUpper rawCode == "") = false)
    (hfind : findSessionByCode db (strToUpper rawCode) = some session)
    (hst1 : session.status ≠ .completed) (hst2 : session.status ≠ .cancelled)
    (hcap : playersCount db session.id < 30)
    (hmem : (findPlayer db session.id user.id).isSome = true) :
    joinSession db user rawCode =
      ⟨db, [.broadcast session.id], .ok (buildState db session.id user.id)⟩ := by
  obtain ⟨p, hp⟩ := Option.isSome_iff_exists.mp hmem
  have h1 : (session.status == Status.completed || session.status == Status.cancelled) = false := by
    simp [hst1, hst2]
  have h2 : ¬ 30 ≤ playersCount db session.id := Nat.not_le.mpr hcap
  simp only [joinSession, hne, hfind, h1, h2, hp, Bool.false_eq_true, if_false]

/-- Witness for C8 amended: the guest rejoining `baseDB`'s session. -/
theorem joinSession_idempotent_witness :
    joinSession baseDB guestUser "abc123" =
      ⟨baseDB, [.broadcast baseSession.id], .ok (buildState baseDB baseSession.id guestUser.id)⟩ :=
  joinSession_idempotent baseDB guestUser "abc123" baseSession rfl rfl
    (by decide) (by decide) (by decide) rfl

/-! ### C4: failing mutating calls -/

/-- `baseDB` with a time limit that has already elapsed at time 100. -/
def dbExpired : DB := { baseDB with sessions := [{ baseSession with ends_at := some 50 }] }

/-- A failing join leaves the store untouched and emits nothing. -/
theorem joinSession_error_silent (db : DB) (user : User) (rawCode : String) (e : ApiError)
    (h : (joinSession db user rawCode).out = .error e) :
    joinSession db user rawCode = ⟨db, [], .error e⟩ := by
  revert h
  simp only [joinSession]
  split
  · intro h; rw [← h]
  · split
    · intro h; rw [← h]
    · split
      · intro h; rw [← h]
      · split
        · intro h; rw [← h]
        · intro h; simp at h

/-- A failing start leaves the store untouched and emits nothing. -/
theorem startSession_error_silent (db : DB) (now : Nat) (user : User) (sid : Nat) (e : ApiError)
    (h : (startSession db now user sid).out = .error e) :
    startSession db now user sid = ⟨db, [], .error e⟩ := by
  revert h
  simp only [startSession]
  split
  · intro h; rw [← h]
  · split
    · intro h; rw [← h]
    · split
      · intro h; rw [← h]
      · split
        · intro h; rw [← h]
        · intro h; simp at h

/-- The only expiring abort of the answer validation phase carries the
`Session time is over` error. -/
theorem submitChecks_expire_eq (db : DB) (now : Nat) (user : User) (sid qid : Nat)
    (b : Bool) (e : ApiError)
    (h : submitChecks db now user sid qid b = .error (.expire e)) :
    e = ⟨400, "Session time is over"⟩ := by
  revert h
  simp only [submitChecks]
  repeat' split
  all_goals intro h
  all_goals simp_all

/-- A failing answer emits no broadcast, and leaves the store untouched
except on the expired-time path, where the session is force-completed. -/
theorem submitAnswer_error_silent (db : DB) (now : Nat) (user : User) (sid qid : Nat)
    (b : Bool) (t : Option String) (e : ApiError)
    (h : (submitAnswer db now user sid qid b t).out = .error e) :
    (submitAnswer db now user sid qid b t).trace = [] ∧
    (submitAnswer db now user sid qid b t = ⟨db, [], .error e⟩ ∨
      (e = ⟨400, "Session time is over"⟩ ∧
        submitAnswer db now user sid qid b t =
          ⟨setSessionStatus db sid .completed, [], .error e⟩)) := by
  revert h
  simp only [submitAnswer]
  split
  · intro h
    exact ⟨rfl, .inl (by rw [← h])⟩
  · rename_i e' heq
    intro h
    have he : Except.error e' = Except.error e := h
    injection he with he
    have hte := submitChecks_expire_eq db now user sid qid b e' heq
    exact ⟨rfl, .inr ⟨he ▸ hte, by rw [← h]⟩⟩
  · intro h
    simp at h

/-- A finalize ending in an error leaves the store untouched and silent. -/
theorem finalize_error_silent (db : DB) (now : Nat) (user : User) (chId : Nat)
    (rs : List RankedResult) (e : ApiError)
    (h : (finalizeChallenge db now user chId rs).out = .error e) :
    finalizeChallenge db now user chId rs = ⟨db, [], .error e⟩ := by
  revert h
  simp only [finalizeChallenge]
  split
  · intro h; rw [← h]
  · split
    · intro h; rw [← h]
    · split
      · intro h; rw [← h]
      · split
        · intro h; simp at h
        · intro h
          simp at h

/-- The already-finalized conflict response leaves the store untouched and
silent. -/
theorem finalize_conflict_silent (db : DB) (now : Nat) (user : User) (chId : Nat)
    (rs : List RankedResult)
    (h : (finalizeChallenge db now user chId rs).out = .ok .conflict) :
    finalizeChallenge db now user chId rs = ⟨db, [], .ok .conflict⟩ := by
  revert h
  simp only [finalizeChallenge]
  split
  · intro h; simp at h
  · split
    · intro h; simp at h
    · split
      · intro h; simp at h
      · split
        · intro h; rw [← h]
        · intro h
          simp at h

/-- C4 is false as stated: submitting an answer to a session whose time
limit has elapsed fails with `Session time is over`, but the failing call
still transitions the session to `completed` — the persistent state is not
unchanged.  (No broadcast is sent, as claimed.) -/
theorem failing_answer_mutates_counterexample :
    (submitAnswer dbExpired 100 guestUser 1 4 true none).out =
      Except.error ⟨400, "Session time is over"⟩ ∧
    (submitAnswer dbExpired 100 guestUser 1 4 true none).trace = [] ∧
    statusOf dbExpired 1 = .active ∧
    statusOf (submitAnswer dbExpired 100 guestUser 1 4 true none).db 1 = .completed ∧
    (submitAnswer dbExpired 100 guestUser 1 4 true none).db ≠ dbExpired := by
  refine ⟨rfl, rfl, rfl, rfl, ?_⟩
  decide

/-- C4 amended: every mutating call that fails sends no broadcast, and
leaves the persistent state unchanged — except that an answer submitted
after the time limit force-completes the session before failing (and a
finalize on an already-finalized session returns the conflict without any
change or broadcast). -/
theorem mutating_calls_fail_without_broadcast (db : DB) (now : Nat) (user : User) :
    (∀ rawCode e, (joinSession db user rawCode).out = .error e →
      joinSession db user rawCode = ⟨db, [], .error e⟩) ∧
    (∀ sid e, (startSession db now user sid).out = .error e →
      startSession db now user sid = ⟨db, [], .error e⟩) ∧
    (∀ sid qid b t e, (submitAnswer db now user sid qid b t).out = .error e →
      (submitAnswer db now user sid qid b t).trace = [] ∧
      (submitAnswer db now user sid qid b t = ⟨db, [], .error e⟩ ∨
        (e = ⟨400, "Session time is over"⟩ ∧
          submitAnswer db now user sid qid b t =
            ⟨setSessionStatus db sid .completed, [], .error e⟩))) ∧
    (∀ chId rs e, (finalizeChallenge db now user chId rs).out = .error e →
      finalizeChallenge db now user chId rs = ⟨db, [], .error e⟩) ∧
    (∀ chId rs, (finalizeChallenge db now user chId rs).out = .ok .conflict →
      finalizeChallenge db now user chId rs = ⟨db, [], .ok .conflict⟩) :=
  ⟨fun rawCode e h => joinSession_error_silent db user rawCode e h,
   fun sid e h => startSession_error_silent db now user sid e h,
   fun sid qid b t e h => submitAnswer_error_silent db now user sid qid b t e h,
   fun chId rs e h => finalize_error_silent db now user chId rs e h,
   fun chId rs h => finalize_conflict_silent db now user chId rs h⟩

/-- Witness for C4 amended: a join with an unknown code fails 404 and
changes nothing. -/
theorem mutating_calls_fail_without_broadcast_witness :
    joinSession baseDB guestUser "ZZZZZZ" = ⟨baseDB, [], .error ⟨404, "Session not found"⟩⟩ :=
  (mutating_calls_fail_without_broadcast baseDB 100 guestUser).1 "ZZZZZZ"
    ⟨404, "Session not found"⟩ rfl

/-! ### Machinery for the answer write phase -/

/-- The combined per-player update the answer write phase applies: add the
points to the caller's row and flip it to `finished` when `flip` holds. -/
def submitUpd (pid : Nat) (pts : Int) (flip : Bool) (x : Player) : Player :=
  if x.id == pid then
    { x with score := x.score + pts, state := if flip then .finished else x.state }
  else x

/-- Whether the answer write phase flips the caller to `finished`: their
answer count after the insert has reached the session's question count. -/
def flipCond (db : DB) (sid pid : Nat) : Bool :=
  decide (questionsCount db sid ≤ answeredCount db pid + 1)

/-- The players that keep the session open after the write phase: `playing`
rows of the session, the spectator host excluded. -/
def remainingCount (db : DB) (s : Session) (sid pid : Nat) (pts : Int) : Nat :=
  ((db.players.map (submitUpd pid pts (flipCond db sid pid))).filter
    (fun q => q.session_id == sid && q.state == PState.playing
      && !(q.is_host && s.is_teacher))).length

/-- The score-then-flip player maps of the write phase compose into
`submitUpd`. -/
theorem map_submitUpd (l : List Player) (pid : Nat) (pts : Int) (fl : Bool) :
    (l.map (fun x => if x.id == pid then { x with score := x.score + pts } else x)).map
      (fun x => if x.id == pid && fl then { x with state := PState.finished } else x)
    = l.map (submitUpd pid pts fl) := by
  rw [List.map_map]
  apply List.map_congr_left
  intro x _
  simp only [Function.comp_apply, submitUpd]
  cases fl with
  | false => by_cases hx : (x.id == pid) = true <;> simp [hx]
  | true => by_cases hx : (x.id == pid) = true <;> simp [hx]

/-- The flip condition read by the write phase, restated over the base
store. -/
theorem flip_decide_eq (db : DB) (s : Session) (p : Player) (sid qid : Nat)
    (b : Bool) (pts : Int) (t : Option String) :
    decide (questionsCount
        { db with
          answers := db.answers ++ [⟨db.next_id, sid, p.id, qid, b, pts, t⟩]
          players := db.players.map (fun x =>
            if x.id == p.id then { x with score := x.score + pts } else x)
          next_id := db.next_id + 1 } sid ≤
      answeredCount
        { db with
          answers := db.answers ++ [⟨db.next_id, sid, p.id, qid, b, pts, t⟩]
          players := db.players.map (fun x =>
            if x.id == p.id then { x with score := x.score + pts } else x)
          next_id := db.next_id + 1 } p.id) = flipCond db sid p.id := by
  simp [flipCond, answeredCount, questionsCount, List.filter_append]

/-- Closed form of the store produced by the answer write phase. -/
theorem submitEffects_db_eq (db : DB) (s : Session) (p : Player) (sid qid : Nat)
    (b : Bool) (pts : Int) (t : Option String) :
    (submitEffects db s p sid qid b pts t).1 =
      (let base : DB :=
        { db with
          answers := db.answers ++ [⟨db.next_id, sid, p.id, qid, b, pts, t⟩]
          players := db.players.map (submitUpd p.id pts (flipCond db sid p.id))
          next_id := db.next_id + 1 }
       if remainingCount db s sid p.id pts == 0
       then setSessionStatus base sid .completed else base) := by
  simp only [submitEffects]
  rw [flip_decide_eq db s p sid qid b pts t, map_submitUpd]
  simp only [remainingCount]

/-- The effect trace of the answer write phase, in source order. -/
theorem submitEffects_trace_eq (db : DB) (s : Session) (p : Player) (sid qid : Nat)
    (b : Bool) (pts : Int) (t : Option String) :
    (submitEffects db s p sid qid b pts t).2 =
      [.insertAnswer db.next_id p.id qid, .addScore p.id pts]
        ++ (if flipCond db sid p.id then [.flipFinished p.id] else [])
        ++ (if remainingCount db s sid p.id pts == 0 then [.completeSession sid] else []) := by
  simp only [submitEffects]
  rw [flip_decide_eq db s p sid qid b pts t, map_submitUpd]
  simp only [remainingCount]

/-- Everything the validation phase guarantees when it succeeds. -/
theorem submitChecks_ok_elim (db : DB) (now : Nat) (user : User) (sid qid : Nat) (b : Bool)
    (s : Session) (p : Player) (pts : Int)
    (h : submitChecks db now user sid qid b = .ok (s, p, pts)) :
    (qid == 0) = false ∧
    findSession db sid = some s ∧
    s.status = .active ∧
    (match s.ends_at with | some te => decide (te < now) | none => false) = false ∧
    findPlayer db sid user.id = some p ∧
    (s.is_teacher && s.host_user_id == user.id) = false ∧
    pts = (if b then 2 else -1) ∧
    (db.questions.find? (fun q => q.id == qid && q.session_id == sid)).isSome = true ∧
    (db.answers.filter (fun a => a.question_id == qid && a.player_id == p.id)).length = 0 := by
  revert h
  simp only [submitChecks]
  split
  · intro h; simp at h
  · rename_i hq
    split
    · intro h; simp at h
    · rename_i session hfs
      split
      · intro h; simp at h
      · rename_i hpend
        split
        · intro h; simp at h
        · rename_i hcc
          split
          · intro h; simp at h
          · rename_i hends
            split
            · intro h; simp at h
            · rename_i player hfp
              split
              · intro h; simp at h
              · rename_i hth
                split
                · intro h; simp at h
                · rename_i qrow hfq
                  split
                  · intro h; simp at h
                  · rename_i hans
                    intro h
                    simp only [Except.ok.injEq, Prod.mk.injEq] at h
                    obtain ⟨h1, h2, h3⟩ := h
                    subst h1; subst h2; subst h3
                    have hstat : session.status = Status.active := by
                      cases hx : session.status
                      · rw [hx] at hpend; simp at hpend
                      · rfl
                      · rw [hx] at hcc; simp at hcc
                      · rw [hx] at hcc; simp at hcc
                    exact ⟨by simpa using hq, hfs, hstat, by simpa using hends, hfp,
                      by simpa using hth, rfl, by simp [hfq], by omega⟩

/-- The validation phase succeeds whenever its nine guards hold. -/
theorem submitChecks_ok_intro (db : DB) (now : Nat) (user : User) (sid qid : Nat) (b : Bool)
    (s : Session) (p : Player)
    (h1 : (qid == 0) = false) (h2 : findSession db sid = some s) (h3 : s.status = .active)
    (h4 : (match s.ends_at with | some te => decide (te < now) | none => false) = false)
    (h5 : findPlayer db sid user.id = some p)
    (h6 : (s.is_teacher && s.host_user_id == user.id) = false)
    (h7 : (db.questions.find? (fun q => q.id == qid && q.session_id == sid)).isSome = true)
    (h8 : (db.answers.filter (fun a => a.question_id == qid && a.player_id == p.id)).length = 0) :
    submitChecks db now user sid qid b = .ok (s, p, if b then 2 else -1) := by
  obtain ⟨qrow, hq⟩ := Option.isSome_iff_exists.mp h7
  simp only [submitChecks, h1, h2, h3, h4, h5, h6, hq, h8, Bool.false_eq_true, if_false]
  simp

/-! ### C1: duplicate answers -/

/-- `submitUpd` never changes a player's identity or key fields. -/
theorem submitUpd_id (pid : Nat) (pts : Int) (fl : Bool) (x : Player) :
    (submitUpd pid pts fl x).id = x.id ∧
    (submitUpd pid pts fl x).session_id = x.session_id ∧
    (submitUpd pid pts fl x).user_id = x.user_id := by
  simp only [submitUpd]
  by_cases h : (x.id == pid) = true <;> simp [h]

/-- The write phase appends exactly the new Answer row. -/
theorem submitEffects_answers (db : DB) (s : Session) (p : Player) (sid qid : Nat)
    (b : Bool) (pts : Int) (t : Option String) :
    (submitEffects db s p sid qid b pts t).1.answers =
      db.answers ++ [⟨db.next_id, sid, p.id, qid, b, pts, t⟩] := by
  rw [submitEffects_db_eq]
  split <;> rfl

/-- The write phase leaves the question rows untouched. -/
theorem submitEffects_questions (db : DB) (s : Session) (p : Player) (sid qid : Nat)
    (b : Bool) (pts : Int) (t : Option String) :
    (submitEffects db s p sid qid b pts t).1.questions = db.questions := by
  rw [submitEffects_db_eq]
  split <;> rfl

/-- The write phase maps every player row through `submitUpd`. -/
theorem submitEffects_players (db : DB) (s : Session) (p : Player) (sid qid : Nat)
    (b : Bool) (pts : Int) (t : Option String) :
    (submitEffects db s p sid qid b pts t).1.players =
      db.players.map (submitUpd p.id pts (flipCond db sid p.id)) := by
  rw [submitEffects_db_eq]
  split <;> rfl

/-- The write phase either keeps the session rows or completes the session. -/
theorem submitEffects_sessions (db : DB) (s : Session) (p : Player) (sid qid : Nat)
    (b : Bool) (pts : Int) (t : Option String) :
    (submitEffects db s p sid qid b pts t).1.sessions = db.sessions ∨
    (submitEffects db s p sid qid b pts t).1.sessions =
      db.sessions.map (fun x => if x.id == sid then { x with status := .completed } else x) := by
  rw [submitEffects_db_eq]
  split
  · right; rfl
  · left; rfl

/-- On a successful validation, the answer route is the write phase plus one
broadcast. -/
theorem submitAnswer_ok_eq (db : DB) (now : Nat) (user : User) (sid qid : Nat)
    (b : Bool) (t : Option String) (s : Session) (p : Player) (pts : Int)
    (hc : submitChecks db now user sid qid b = .ok (s, p, pts)) :
    submitAnswer db now user sid qid b t =
      ⟨(submitEffects db s p sid qid b pts t).1,
       (submitEffects db s p sid qid b pts t).2 ++ [.broadcast sid], .ok pts⟩ := by
  simp [submitAnswer, hc]

/-- The validation phase rejects a pair that already has an Answer row with
the `Question already answered` failure. -/
theorem submitChecks_already (db : DB) (now : Nat) (user : User) (sid qid : Nat) (b : Bool)
    (s : Session) (p : Player)
    (h1 : (qid == 0) = false) (h2 : findSession db sid = some s) (h3 : s.status = .active)
    (h4 : (match s.ends_at with | some te => decide (te < now) | none => false) = false)
    (h5 : findPlayer db sid user.id = some p)
    (h6 : (s.is_teacher && s.host_user_id == user.id) = false)
    (h7 : (db.questions.find? (fun q => q.id == qid && q.session_id == sid)).isSome = true)
    (h8 : 0 < (db.answers.filter (fun a => a.question_id == qid && a.player_id == p.id)).length) :
    submitChecks db now user sid qid b = .error (.fail ⟨400, "Question already answered"⟩) := by
  obtain ⟨qrow, hq⟩ := Option.isSome_iff_exists.mp h7
  simp only [submitChecks, h1, h2, h3, h4, h5, h6, hq, Bool.false_eq_true, if_false]
  simp [h8]

/-- C1 is false on the code: the at-most-one-Answer rule is only an
application-level existence check (a `SELECT` before a plain `INSERT`; no
uniqueness constraint on `play_session_answers` exists anywhere in the
schema code), so two submissions whose validation phases both read the state
before either insert — the concurrent interleaving — both pass the check and
persist two Answer rows for the same (player, question) pair. -/
theorem duplicate_answer_not_storage_guarded_counterexample :
    submitChecks baseDB 100 guestUser 1 4 true =
      .ok (baseSession, ⟨3, 1, 8, 0, .playing, false⟩, 2) ∧
    (answersFor
      (submitEffects
        (submitEffects baseDB baseSession ⟨3, 1, 8, 0, .playing, false⟩ 1 4 true 2 none).1
        baseSession ⟨3, 1, 8, 0, .playing, false⟩ 1 4 true 2 none).1
      3 4).length = 2 :=
  ⟨rfl, rfl⟩

/-- C1 amended: sequentially, a second submission for the same (player,
question) pair is rejected by the application-level existence check with the
400 `Question already answered` error (provided the first call left the
session active; the guard is not a storage-layer constraint), exactly one
Answer row for the pair is persisted, and no failing retry adds a row. -/
theorem answer_duplicate_app_level_guard (db : DB) (now : Nat) (user : User)
    (sid qid : Nat) (b b' : Bool) (t t' : Option String)
    (s : Session) (p : Player) (pts : Int)
    (hc : submitChecks db now user sid qid b = .ok (s, p, pts))
    (hfor : (answersFor db p.id qid).length = 0) :
    (submitAnswer db now user sid qid b t).out = .ok pts ∧
    (answersFor (submitAnswer db now user sid qid b t).db p.id qid).length = 1 ∧
    (statusOf (submitAnswer db now user sid qid b t).db sid = .active →
      (submitAnswer (submitAnswer db now user sid qid b t).db now user sid qid b' t').out =
        .error ⟨400, "Question already answered"⟩) ∧
    (∀ e, (submitAnswer (submitAnswer db now user sid qid b t).db now user sid qid b' t').out
        = .error e →
      (submitAnswer (submitAnswer db now user sid qid b t).db now user sid qid b' t').db.answers
        = (submitAnswer db now user sid qid b t).db.answers) := by
  obtain ⟨hq0, hfs, hstat, hends, hfp, hth, hpts, hqrow, hnoans⟩ :=
    submitChecks_ok_elim db now user sid qid b s p pts hc
  rw [submitAnswer_ok_eq db now user sid qid b t s p pts hc]
  have hsid : (s.id == sid) = true := by
    have := List.find?_some hfs
    exact this
  have hanew : (submitEffects db s p sid qid b pts t).1.answers =
      db.answers ++ [⟨db.next_id, sid, p.id, qid, b, pts, t⟩] :=
    submitEffects_answers db s p sid qid b pts t
  refine ⟨rfl, ?_, ?_, ?_⟩
  · simp only [answersFor, hanew, List.filter_append, List.length_append]
    simp only [answersFor] at hfor
    simp [hfor]
  · intro hact
    set db1 := (submitEffects db s p sid qid b pts t).1 with hdb1
    have hact2 : statusOf db1 sid = Status.active := hact
    have hfs1 : findSession db1 sid = some s := by
      rcases submitEffects_sessions db s p sid qid b pts t with hss | hss
      · simp only [findSession, hdb1, hss]
        exact hfs
      · exfalso
        have hfs' : db.sessions.find? (fun x => x.id == sid) = some s := hfs
        have hfind : findSession db1 sid =
            some (if (s.id == sid) = true then { s with status := Status.completed } else s) := by
          simp only [findSession, hdb1, hss]
          rw [find?_map_comm db.sessions _ (fun x => x.id == sid) ?hpres, hfs']
          · rfl
          case hpres =>
            intro a
            by_cases ha : (a.id == sid) = true <;> simp [ha]
        rw [hsid] at hfind
        simp only [if_pos rfl] at hfind
        unfold statusOf at hact2
        rw [hfind] at hact2
        simp at hact2
    have hfp1 : findPlayer db1 sid user.id =
        some (submitUpd p.id pts (flipCond db sid p.id) p) := by
      have hfp' : db.players.find? (fun x => x.session_id == sid && x.user_id == user.id)
          = some p := hfp
      simp only [findPlayer, hdb1, submitEffects_players]
      rw [find?_map_comm db.players _ _ ?hpres2, hfp']
      · rfl
      case hpres2 =>
        intro a
        obtain ⟨_, h2a, h3a⟩ := submitUpd_id p.id pts (flipCond db sid p.id) a
        rw [h2a, h3a]
    have hq1 : (db1.questions.find? (fun q => q.id == qid && q.session_id == sid)).isSome
        = true := by
      rw [hdb1, submitEffects_questions]
      exact hqrow
    have hdup : 0 < (db1.answers.filter
        (fun a => a.question_id == qid && a.player_id ==
          (submitUpd p.id pts (flipCond db sid p.id) p).id)).length := by
      obtain ⟨hid, _, _⟩ := submitUpd_id p.id pts (flipCond db sid p.id) p
      rw [hid, hanew]
      simp [List.filter_append]
    have hrej := submitChecks_already db1 now user sid qid b' s
      (submitUpd p.id pts (flipCond db sid p.id) p) hq0 hfs1 hstat hends hfp1 hth hq1 hdup
    simp [submitAnswer, hrej]
  · intro e he
    obtain ⟨-, hcases⟩ := submitAnswer_error_silent _ now user sid qid b' t' e he
    rcases hcases with hres | ⟨-, hres⟩
    · rw [hres]
    · rw [hres]
      rfl

/-- Witness for C1 amended at the concrete guest double-submit. -/
theorem answer_duplicate_app_level_guard_witness :
    (submitAnswer baseDB 100 guestUser 1 4 true none).out = .ok 2 ∧
    (answersFor (submitAnswer baseDB 100 guestUser 1 4 true none).db 3 4).length = 1 ∧
    (statusOf (submitAnswer baseDB 100 guestUser 1 4 true none).db 1 = .active →
      (submitAnswer (submitAnswer baseDB 100 guestUser 1 4 true none).db 100 guestUser 1 4
          false none).out = .error ⟨400, "Question already answered"⟩) ∧
    (∀ e, (submitAnswer (submitAnswer baseDB 100 guestUser 1 4 true none).db 100 guestUser 1 4
          false none).out = .error e →
      (submitAnswer (submitAnswer baseDB 100 guestUser 1 4 true none).db 100 guestUser 1 4
          false none).db.answers = (submitAnswer baseDB 100 guestUser 1 4 true none).db.answers) :=
  answer_duplicate_app_level_guard baseDB 100 guestUser 1 4 true false none none
    baseSession ⟨3, 1, 8, 0, .playing, false⟩ 2 rfl rfl

/-! ### C6: effect order of a successful answer -/

/-- `submitUpd` keeps the host flag, and only moves states toward
`finished`. -/
theorem submitUpd_fields (pid : Nat) (pts : Int) (fl : Bool) (x : Player) :
    (submitUpd pid pts fl x).is_host = x.is_host ∧
    ((submitUpd pid pts fl x).state = PState.playing → x.state = PState.playing) := by
  simp only [submitUpd]
  by_cases h : (x.id == pid) = true
  · cases fl <;> simp [h]
  · simp [h]

/-- After the write phase, the session-closing count is zero exactly when no
player of the session is still `playing` — provided no spectator-host row is
`playing` beforehand. -/
theorem remaining_zero_iff (db : DB) (s : Session) (sid pid : Nat) (pts : Int)
    (hspec : ∀ x ∈ db.players, x.session_id = sid → x.is_host = true →
      s.is_teacher = true → x.state = PState.finished) :
    (remainingCount db s sid pid pts = 0 ↔
      ((db.players.map (submitUpd pid pts (flipCond db sid pid))).filter
        (fun q => q.session_id == sid && q.state == PState.playing)).length = 0) := by
  have hmapped : ∀ q ∈ db.players.map (submitUpd pid pts (flipCond db sid pid)),
      (q.session_id == sid && q.state == PState.playing) = true →
      (q.is_host && s.is_teacher) = false := by
    intro q hq hpl
    obtain ⟨x, hx, hxq⟩ := List.mem_map.mp hq
    cases hh : (q.is_host && s.is_teacher) with
    | false => rfl
    | true =>
      exfalso
      simp only [Bool.and_eq_true, beq_iff_eq] at hpl hh
      obtain ⟨hhost, hstate⟩ := submitUpd_fields pid pts (flipCond db sid pid) x
      have hxplay : x.state = PState.playing := by
        apply hstate; rw [hxq]; exact hpl.2
      have hxsid : x.session_id = sid := by
        obtain ⟨-, hsess, -⟩ := submitUpd_id pid pts (flipCond db sid pid) x
        rw [← hsess, hxq]; exact hpl.1
      have hxhost : x.is_host = true := by
        rw [← hhost, hxq]; exact hh.1
      have hfin := hspec x hx hxsid hxhost hh.2
      rw [hfin] at hxplay
      exact PState.noConfusion hxplay
  constructor
  · intro h
    rw [List.length_eq_zero, List.filter_eq_nil_iff]
    rw [remainingCount, List.length_eq_zero, List.filter_eq_nil_iff] at h
    intro q hq hpl
    have hC := hmapped q hq hpl
    exact h q hq (by rw [Bool.and_eq_true]; exact ⟨hpl, by rw [hC]; rfl⟩)
  · intro h
    rw [remainingCount, List.length_eq_zero, List.filter_eq_nil_iff]
    rw [List.length_eq_zero, List.filter_eq_nil_iff] at h
    intro q hq hpr
    simp only [Bool.and_eq_true] at hpr
    exact h q hq (by simp only [Bool.and_eq_true]; exact hpr.1)

/-- Status of the session after the write phase: `completed` exactly when
the closing count hit zero, the prior status otherwise. -/
theorem submitEffects_statusOf (db : DB) (s : Session) (p : Player) (sid qid : Nat)
    (b : Bool) (pts : Int) (t : Option String)
    (hfs : findSession db sid = some s) (hsid : (s.id == sid) = true) :
    statusOf (submitEffects db s p sid qid b pts t).1 sid =
      (if remainingCount db s sid p.id pts == 0 then Status.completed else s.status) := by
  have hfs' : db.sessions.find? (fun x => x.id == sid) = some s := hfs
  rw [submitEffects_db_eq]
  split
  · simp only [statusOf, findSession, setSessionStatus]
    rw [find?_map_comm db.sessions _ (fun x => x.id == sid) ?hpres, hfs']
    · have hs : s.id = sid := by simpa using hsid
      simp [hs]
    case hpres =>
      intro a
      by_cases ha : (a.id == sid) = true <;> simp [ha]
  · simp only [statusOf, findSession]
    rw [hfs']

/-- The caller's player state after the write phase. -/
theorem submitEffects_stateOf (db : DB) (s : Session) (p : Player) (sid qid : Nat)
    (b : Bool) (pts : Int) (t : Option String)
    (hpid : playerById db p.id = some p) :
    stateOf (submitEffects db s p sid qid b pts t).1 p.id =
      (if flipCond db sid p.id then PState.finished else p.state) := by
  have hpid' : db.players.find? (fun x => x.id == p.id) = some p := hpid
  unfold stateOf
  rw [submitEffects_players]
  rw [find?_map_comm db.players _ (fun x => x.id == p.id) ?hpres, hpid']
  · cases hfl : flipCond db sid p.id <;> simp [submitUpd, hfl]
  case hpres =>
    intro a
    obtain ⟨h1, -, -⟩ := submitUpd_id p.id pts (flipCond db sid p.id) a
    simp only [h1]

/-- The caller's score after the write phase. -/
theorem submitEffects_scoreOf (db : DB) (s : Session) (p : Player) (sid qid : Nat)
    (b : Bool) (pts : Int) (t : Option String)
    (hpid : playerById db p.id = some p) :
    scoreOf (submitEffects db s p sid qid b pts t).1 p.id = p.score + pts := by
  have hpid' : db.players.find? (fun x => x.id == p.id) = some p := hpid
  unfold scoreOf
  rw [submitEffects_players]
  rw [find?_map_comm db.players _ (fun x => x.id == p.id) ?hpres, hpid']
  · simp [submitUpd]
  case hpres =>
    intro a
    obtain ⟨h1, -, -⟩ := submitUpd_id p.id pts (flipCond db sid p.id) a
    simp only [h1]

/-- C6: on a successful answer the side effects happen in source order —
insert the Answer, add the points to the caller's score, flip the caller to
`finished` exactly when their answered count now equals the session's
question count, transition the session to `completed` exactly when zero
players remain `playing`, then broadcast — under the reachable-state
assumptions that the caller's row is `playing` with fewer answers than
questions and that no spectator-host row is `playing`. -/
theorem submitAnswer_effect_order (db : DB) (now : Nat) (user : User)
    (sid qid : Nat) (b : Bool) (t : Option String) (s : Session) (p : Player) (pts : Int)
    (hc : submitChecks db now user sid qid b = .ok (s, p, pts))
    (hpid : playerById db p.id = some p)
    (hplaying : p.state = .playing)
    (hcount : answeredCount db p.id < questionsCount db sid)
    (hspec : ∀ x ∈ db.players, x.session_id = sid → x.is_host = true →
      s.is_teacher = true → x.state = PState.finished) :
    (submitAnswer db now user sid qid b t).out = .ok pts ∧
    (submitAnswer db now user sid qid b t).db.answers =
      db.answers ++ [⟨db.next_id, sid, p.id, qid, b, pts, t⟩] ∧
    scoreOf (submitAnswer db now user sid qid b t).db p.id = scoreOf db p.id + pts ∧
    (stateOf (submitAnswer db now user sid qid b t).db p.id = .finished ↔
      answeredCount (submitAnswer db now user sid qid b t).db p.id =
        questionsCount (submitAnswer db now user sid qid b t).db sid) ∧
    (statusOf (submitAnswer db now user sid qid b t).db sid = .completed ↔
      playingCount (submitAnswer db now user sid qid b t).db sid = 0) ∧
    (submitAnswer db now user sid qid b t).trace =
      [.insertAnswer db.next_id p.id qid, .addScore p.id pts]
        ++ (if answeredCount (submitAnswer db now user sid qid b t).db p.id =
              questionsCount (submitAnswer db now user sid qid b t).db sid
            then [.flipFinished p.id] else [])
        ++ (if playingCount (submitAnswer db now user sid qid b t).db sid = 0
            then [.completeSession sid] else [])
        ++ [.broadcast sid] := by
  obtain ⟨hq0, hfs, hstat, hends, hfp, hth, hpts, hqrow, hnoans⟩ :=
    submitChecks_ok_elim db now user sid qid b s p pts hc
  have hsid : (s.id == sid) = true := by
    have h2 := List.find?_some (show db.sessions.find? (fun x => x.id == sid) = some s from hfs)
    exact h2
  have hA := submitAnswer_ok_eq db now user sid qid b t s p pts hc
  have hdbeq : (submitAnswer db now user sid qid b t).db =
      (submitEffects db s p sid qid b pts t).1 := by rw [hA]
  have htr : (submitAnswer db now user sid qid b t).trace =
      (submitEffects db s p sid qid b pts t).2 ++ [.broadcast sid] := by rw [hA]
  have hout : (submitAnswer db now user sid qid b t).out = .ok pts := by rw [hA]
  have hcn : answeredCount (submitEffects db s p sid qid b pts t).1 p.id
      = answeredCount db p.id + 1 := by
    unfold answeredCount
    rw [submitEffects_answers]
    simp [List.filter_append]
  have hqc : questionsCount (submitEffects db s p sid qid b pts t).1 sid
      = questionsCount db sid := by
    unfold questionsCount
    rw [submitEffects_questions]
  have hE1 : (flipCond db sid p.id = true) ↔
      (answeredCount (submitEffects db s p sid qid b pts t).1 p.id =
        questionsCount (submitEffects db s p sid qid b pts t).1 sid) := by
    rw [hcn, hqc]
    unfold flipCond
    rw [decide_eq_true_iff]
    constructor
    · intro hle; omega
    · intro heq; omega
  have hplay : playingCount (submitEffects db s p sid qid b pts t).1 sid =
      ((db.players.map (submitUpd p.id pts (flipCond db sid p.id))).filter
        (fun q => q.session_id == sid && q.state == PState.playing)).length := by
    unfold playingCount
    rw [submitEffects_players]
  have hrem0 : ((remainingCount db s sid p.id pts == 0) = true) ↔
      (playingCount (submitEffects db s p sid qid b pts t).1 sid = 0) := by
    rw [beq_iff_eq, hplay]
    exact remaining_zero_iff db s sid p.id pts hspec
  refine ⟨hout, ?_, ?_, ?_, ?_, ?_⟩
  · rw [hdbeq]; exact submitEffects_answers db s p sid qid b pts t
  · rw [hdbeq, submitEffects_scoreOf db s p sid qid b pts t hpid]
    have hsc : scoreOf db p.id = p.score := by
      unfold scoreOf
      rw [show db.players.find? (fun x => x.id == p.id) = some p from hpid]
    rw [hsc]
  · rw [hdbeq, submitEffects_stateOf db s p sid qid b pts t hpid, hplaying]
    cases hfl : flipCond db sid p.id
    · rw [hfl] at hE1
      simp only [Bool.false_eq_true, false_iff] at hE1
      simp [hE1]
    · rw [hfl] at hE1
      simp only [true_iff] at hE1
      simp [hE1]
  · rw [hdbeq, submitEffects_statusOf db s p sid qid b pts t hfs hsid, hstat]
    cases hrem : (remainingCount db s sid p.id pts == 0)
    · rw [hrem] at hrem0
      simp only [Bool.false_eq_true, false_iff] at hrem0
      simp [hrem0]
    · rw [hrem] at hrem0
      simp only [true_iff] at hrem0
      simp [hrem0]
  · rw [htr, hdbeq, submitEffects_trace_eq db s p sid qid b pts t]
    rw [if_congr hE1 rfl rfl, if_congr hrem0 rfl rfl]

/-- Witness for C6: the guest answering question 4 of `baseDB`'s session. -/
theorem submitAnswer_effect_order_witness :
    (submitAnswer baseDB 100 guestUser 1 4 true none).out = .ok 2 ∧
    (submitAnswer baseDB 100 guestUser 1 4 true none).db.answers =
      baseDB.answers ++ [⟨baseDB.next_id, 1, 3, 4, true, 2, none⟩] ∧
    scoreOf (submitAnswer baseDB 100 guestUser 1 4 true none).db 3 =
      scoreOf baseDB 3 + 2 ∧
    (stateOf (submitAnswer baseDB 100 guestUser 1 4 true none).db 3 = .finished ↔
      answeredCount (submitAnswer baseDB 100 guestUser 1 4 true none).db 3 =
        questionsCount (submitAnswer baseDB 100 guestUser 1 4 true none).db 1) ∧
    (statusOf (submitAnswer baseDB 100 guestUser 1 4 true none).db 1 = .completed ↔
      playingCount (submitAnswer baseDB 100 guestUser 1 4 true none).db 1 = 0) ∧
    (submitAnswer baseDB 100 guestUser 1 4 true none).trace =
      [.insertAnswer baseDB.next_id 3 4, .addScore 3 2]
        ++ (if answeredCount (submitAnswer baseDB 100 guestUser 1 4 true none).db 3 =
              questionsCount (submitAnswer baseDB 100 guestUser 1 4 true none).db 1
            then [.flipFinished 3] else [])
        ++ (if playingCount (submitAnswer baseDB 100 guestUser 1 4 true none).db 1 = 0
            then [.completeSession 1] else [])
        ++ [.broadcast 1] :=
  submitAnswer_effect_order baseDB 100 guestUser 1 4 true none baseSession
    ⟨3, 1, 8, 0, .playing, false⟩ 2 rfl rfl rfl (by decide) (by decide)

/-! ### C5: scoring -/

/-- Submit a correct answer for each listed question id in turn. -/
def runCorrect (now : Nat) (user : User) (sid : Nat) : DB → List Nat → DB
  | db, [] => db
  | db, q :: qs => runCorrect now user sid (submitAnswer db now user sid q true none).db qs

/-- Reachable-state preconditions under which a player can still answer each
question of `todo`: the session is active without a time limit, the caller
is a non-spectator-host participant still `playing`, the listed questions
belong to the session, are distinct and unanswered by the caller, and the
caller has at most `questionsCount - todo.length` answers so far. -/
structure RunPre (db : DB) (now : Nat) (user : User) (sid : Nat) (s : Session) (p : Player)
    (todo : List Nat) : Prop where
  hfs : findSession db sid = some s
  hstat : s.status = Status.active
  hends : s.ends_at = none
  hth : (s.is_teacher && s.host_user_id == user.id) = false
  hfp : findPlayer db sid user.id = some p
  hpid : playerById db p.id = some p
  hplaying : p.state = PState.playing
  hnohost : (p.is_host && s.is_teacher) = false
  hq0 : ∀ q ∈ todo, (q == 0) = false
  hqex : ∀ q ∈ todo, (db.questions.find? (fun x => x.id == q && x.session_id == sid)).isSome = true
  hnodup : todo.Nodup
  hunans : ∀ q ∈ todo,
    (db.answers.filter (fun a => a.question_id == q && a.player_id == p.id)).length = 0
  hcount : answeredCount db p.id + todo.length ≤ questionsCount db sid

/-- When some countable player is still `playing` after the write phase, the
session rows are untouched. -/
theorem submitEffects_sessions_of_rem (db : DB) (s : Session) (p : Player) (sid qid : Nat)
    (b : Bool) (pts : Int) (t : Option String)
    (h : remainingCount db s sid p.id pts ≠ 0) :
    (submitEffects db s p sid qid b pts t).1.sessions = db.sessions := by
  rw [submitEffects_db_eq]
  have hc : ¬((remainingCount db s sid p.id pts == 0) = true) := by simp [h]
  rw [if_neg hc]

/-- One correct-answer step under `RunPre`: the call succeeds with +2 and
the preconditions carry over to the remaining questions. -/
theorem runCorrect_step (db : DB) (now : Nat) (user : User) (sid : Nat) (s : Session)
    (p : Player) (q : Nat) (qs : List Nat)
    (pre : RunPre db now user sid s p (q :: qs)) :
    submitChecks db now user sid q true = .ok (s, p, 2) ∧
    (submitAnswer db now user sid q true none).db = (submitEffects db s p sid q true 2 none).1 ∧
    scoreOf (submitAnswer db now user sid q true none).db p.id = scoreOf db p.id + 2 ∧
    (qs ≠ [] → RunPre (submitAnswer db now user sid q true none).db now user sid s
      (submitUpd p.id 2 (flipCond db sid p.id) p) qs) := by
  have hmemq : q ∈ q :: qs := List.mem_cons_self q qs
  have h4 : (match s.ends_at with | some te => decide (te < now) | none => false) = false := by
    rw [pre.hends]
  have hcall : submitChecks db now user sid q true = .ok (s, p, 2) := by
    have := submitChecks_ok_intro db now user sid q true s p
      (pre.hq0 q hmemq) pre.hfs pre.hstat h4 pre.hfp pre.hth
      (pre.hqex q hmemq) (pre.hunans q hmemq)
    simpa using this
  have hA := submitAnswer_ok_eq db now user sid q true none s p 2 hcall
  have hdbeq : (submitAnswer db now user sid q true none).db =
      (submitEffects db s p sid q true 2 none).1 := by rw [hA]
  have hscore0 : scoreOf db p.id = p.score := by
    unfold scoreOf
    rw [show db.players.find? (fun x => x.id == p.id) = some p from pre.hpid]
  have hscore : scoreOf (submitAnswer db now user sid q true none).db p.id =
      scoreOf db p.id + 2 := by
    rw [hdbeq, submitEffects_scoreOf db s p sid q true 2 none pre.hpid, hscore0]
  refine ⟨hcall, hdbeq, hscore, ?_⟩
  intro hqs
  have hkey : p.session_id = sid ∧ p.user_id = user.id := by
    have h2 := List.find?_some (show db.players.find?
      (fun x => x.session_id == sid && x.user_id == user.id) = some p from pre.hfp)
    simp only [Bool.and_eq_true, beq_iff_eq] at h2
    exact h2
  have hfl : flipCond db sid p.id = false := by
    have hlen : 1 ≤ qs.length := by
      cases qs with
      | nil => exact absurd rfl hqs
      | cons a l => simp
    have hc := pre.hcount
    simp only [List.length_cons] at hc
    unfold flipCond
    rw [decide_eq_false_iff_not]
    omega
  set p' := submitUpd p.id 2 (flipCond db sid p.id) p with hp'
  have hp'fields : p'.id = p.id ∧ p'.session_id = p.session_id ∧ p'.user_id = p.user_id ∧
      p'.is_host = p.is_host ∧ p'.state = p.state ∧ p'.score = p.score + 2 := by
    rw [hp', hfl]
    simp [submitUpd]
  have hrem : remainingCount db s sid p.id 2 ≠ 0 := by
    have hpmem : p ∈ db.players :=
      List.mem_of_find?_eq_some (show db.players.find?
        (fun x => x.session_id == sid && x.user_id == user.id) = some p from pre.hfp)
    have hp'mem : p' ∈ db.players.map (submitUpd p.id 2 (flipCond db sid p.id)) :=
      List.mem_map.mpr ⟨p, hpmem, rfl⟩
    have hp'pred : (p'.session_id == sid && p'.state == PState.playing
        && !(p'.is_host && s.is_teacher)) = true := by
      obtain ⟨-, h2, -, h4', h5, -⟩ := hp'fields
      rw [h2, h4', h5, hkey.1, pre.hplaying, pre.hnohost]
      simp
    have : p' ∈ (db.players.map (submitUpd p.id 2 (flipCond db sid p.id))).filter
        (fun x => x.session_id == sid && x.state == PState.playing
          && !(x.is_host && s.is_teacher)) :=
      List.mem_filter.mpr ⟨hp'mem, hp'pred⟩
    unfold remainingCount
    intro hzero
    rw [List.length_eq_zero] at hzero
    rw [hzero] at this
    exact List.not_mem_nil p' this
  have hsess : (submitEffects db s p sid q true 2 none).1.sessions = db.sessions :=
    submitEffects_sessions_of_rem db s p sid q true 2 none hrem
  have hansnew : (submitEffects db s p sid q true 2 none).1.answers =
      db.answers ++ [⟨db.next_id, sid, p.id, q, true, 2, none⟩] :=
    submitEffects_answers db s p sid q true 2 none
  have hques : (submitEffects db s p sid q true 2 none).1.questions = db.questions :=
    submitEffects_questions db s p sid q true 2 none
  rw [hdbeq]
  refine ⟨?_, pre.hstat, pre.hends, pre.hth, ?_, ?_, ?_, ?_, ?_, ?_, ?_, ?_, ?_⟩
  · unfold findSession
    rw [hsess]
    exact pre.hfs
  · unfold findPlayer
    rw [submitEffects_players]
    have hfp' : db.players.find?
        (fun x => x.session_id == sid && x.user_id == user.id) = some p := pre.hfp
    rw [find?_map_comm db.players _ _ ?hpres3, hfp']
    · rfl
    case hpres3 =>
      intro a
      obtain ⟨-, h2a, h3a⟩ := submitUpd_id p.id 2 (flipCond db sid p.id) a
      simp only [h2a, h3a]
  · unfold playerById
    rw [submitEffects_players]
    have hpid' : db.players.find? (fun x => x.id == p.id) = some p := pre.hpid
    rw [hp'fields.1]
    rw [find?_map_comm db.players _ _ ?hpres4, hpid']
    · rfl
    case hpres4 =>
      intro a
      obtain ⟨h1a, -, -⟩ := submitUpd_id p.id 2 (flipCond db sid p.id) a
      simp only [h1a]
  · rw [hp'fields.2.2.2.2.1]
    exact pre.hplaying
  · rw [hp'fields.2.2.2.1]
    exact pre.hnohost
  · intro x hx
    exact pre.hq0 x (List.mem_cons_of_mem q hx)
  · intro x hx
    rw [hques]
    exact pre.hqex x (List.mem_cons_of_mem q hx)
  · exact (List.nodup_cons.mp pre.hnodup).2
  · intro x hx
    rw [hp'fields.1, hansnew]
    rw [List.filter_append, List.length_append]
    rw [pre.hunans x (List.mem_cons_of_mem q hx)]
    have hxq : x ≠ q := by
      intro heq
      subst heq
      exact (List.nodup_cons.mp pre.hnodup).1 hx
    simp [hxq, Ne.symm hxq]
  · rw [hp'fields.1]
    have hcn : answeredCount (submitEffects db s p sid q true 2 none).1 p.id
        = answeredCount db p.id + 1 := by
      unfold answeredCount
      rw [hansnew]
      simp [List.filter_append]
    have hqc : questionsCount (submitEffects db s p sid q true 2 none).1 sid
        = questionsCount db sid := by
      unfold questionsCount
      rw [hques]
    rw [hcn, hqc]
    have hc := pre.hcount
    simp only [List.length_cons] at hc
    omega

/-- Under `RunPre`, answering every `todo` question correctly adds exactly
2 points per question to the caller's score. -/
theorem runCorrect_score (now : Nat) (user : User) (sid : Nat) (s : Session)
    (todo : List Nat) :
    ∀ (db : DB) (p : Player), RunPre db now user sid s p todo →
      scoreOf (runCorrect now user sid db todo) p.id = scoreOf db p.id + 2 * todo.length := by
  induction todo with
  | nil => intro db p _; simp [runCorrect]
  | cons q qs ih =>
    intro db p pre
    obtain ⟨-, hdbeq, hscore, hnext⟩ := runCorrect_step db now user sid s p q qs pre
    show scoreOf (runCorrect now user sid (submitAnswer db now user sid q true none).db qs) p.id
      = scoreOf db p.id + 2 * (q :: qs).length
    cases hqs : qs with
    | nil =>
      subst hqs
      simp only [runCorrect]
      rw [hscore]
      simp only [List.length_cons, List.length_nil]
      omega
    | cons q2 qs2 =>
      subst hqs
      have pre' := hnext (by simp)
      have hres := ih (submitAnswer db now user sid q true none).db
        (submitUpd p.id 2 (flipCond db sid p.id) p) pre'
      rw [(submitUpd_id p.id 2 (flipCond db sid p.id) p).1] at hres
      rw [hres, hscore]
      simp only [List.length_cons]
      omega

/-- C5: a successful answer awards +2 when correct and −1 otherwise, returns
that value and adds it to the submitting player's score; consequently a
player starting from score 0 who answers all questions of the session
correctly ends with score 2 × questionCount. -/
theorem scoring_rule (db : DB) (now : Nat) (user : User) (sid : Nat) :
    (∀ (qid : Nat) (b : Bool) (t : Option String) (s : Session) (p : Player) (pts : Int),
      submitChecks db now user sid qid b = .ok (s, p, pts) →
      playerById db p.id = some p →
      (submitAnswer db now user sid qid b t).out = .ok pts ∧
      pts = (if b then 2 else -1) ∧
      scoreOf (submitAnswer db now user sid qid b t).db p.id = scoreOf db p.id + pts) ∧
    (∀ (todo : List Nat) (s : Session) (p : Player),
      RunPre db now user sid s p todo →
      scoreOf db p.id = 0 →
      todo.length = questionsCount db sid →
      scoreOf (runCorrect now user sid db todo) p.id = 2 * questionsCount db sid) := by
  constructor
  · intro qid b t s p pts hc hpid
    obtain ⟨-, -, -, -, -, -, hpts, -, -⟩ := submitChecks_ok_elim db now user sid qid b s p pts hc
    have hA := submitAnswer_ok_eq db now user sid qid b t s p pts hc
    refine ⟨by rw [hA], by simpa using hpts, ?_⟩
    have hdbeq : (submitAnswer db now user sid qid b t).db =
        (submitEffects db s p sid qid b pts t).1 := by rw [hA]
    rw [hdbeq, submitEffects_scoreOf db s p sid qid b pts t hpid]
    have hsc : scoreOf db p.id = p.score := by
      unfold scoreOf
      rw [show db.players.find? (fun x => x.id == p.id) = some p from hpid]
    rw [hsc]
  · intro todo s p pre hz hlen
    have hrun := runCorrect_score now user sid s todo db p pre
    rw [hz, hlen] at hrun
    simpa using hrun

/-- Witness for C5: the guest answers both questions of `baseDB`'s session
correctly and ends with score 4 = 2 × 2. -/
theorem scoring_rule_witness :
    scoreOf (runCorrect 100 guestUser 1 baseDB [4, 5]) 3 = 2 * questionsCount baseDB 1 :=
  (scoring_rule baseDB 100 guestUser 1).2 [4, 5] baseSession ⟨3, 1, 8, 0, .playing, false⟩
    ⟨rfl, rfl, rfl, rfl, rfl, rfl, rfl, rfl, by decide, by decide, by decide, by decide,
     by decide⟩ rfl rfl

/-! ### C2: finalize settles at most once -/

/-- Goal-progress rollup never touches the session rows. -/
theorem processAssignment_sessions (uid : Nat) (x : Int) (now : Nat) (db : DB)
    (item : Assignment × Option Submission) :
    (processAssignment uid x now db item).sessions = db.sessions := by
  simp only [processAssignment]
  split <;> split <;> rfl

/-- Goal-progress rollup never touches the assignment rows. -/
theorem processAssignment_assignments (uid : Nat) (x : Int) (now : Nat) (db : DB)
    (item : Assignment × Option Submission) :
    (processAssignment uid x now db item).assignments = db.assignments := by
  simp only [processAssignment]
  split <;> split <;> rfl

/-- Goal-progress rollup only appends `assignment`-mode ledger rows, so the
`blitz_challenge` count per (participant, session) is untouched. -/
theorem processAssignment_blitz (uid : Nat) (x : Int) (now : Nat) (db : DB)
    (item : Assignment × Option Submission) (u cid : Nat) :
    blitzEventCount (processAssignment uid x now db item) u cid =
      blitzEventCount db u cid := by
  have hm : (("assignment" : String) == "blitz_challenge") = false := by decide
  simp only [processAssignment, blitzEventCount]
  split
  · split <;> simp [List.filter_append, hm]
  · split <;> rfl

/-- `updateAssignmentXpProgress` preserves sessions, assignments and every
`blitz_challenge` ledger count. -/
theorem updateXp_preserves (db : DB) (now uid : Nat) (x : Int) :
    (updateAssignmentXpProgress db now uid x).sessions = db.sessions ∧
    (updateAssignmentXpProgress db now uid x).assignments = db.assignments ∧
    ∀ u cid, blitzEventCount (updateAssignmentXpProgress db now uid x) u cid =
      blitzEventCount db u cid := by
  unfold updateAssignmentXpProgress
  refine foldl_preserve _ (fun d => d.sessions = db.sessions ∧ d.assignments = db.assignments ∧
    ∀ u cid, blitzEventCount d u cid = blitzEventCount db u cid) ?_ _ db ⟨rfl, rfl, fun _ _ => rfl⟩
  intro d it ⟨h1, h2, h3⟩
  exact ⟨by rw [processAssignment_sessions]; exact h1,
    by rw [processAssignment_assignments]; exact h2,
    fun u cid => by rw [processAssignment_blitz]; exact h3 u cid⟩

/-- One finalize results-loop step never touches the session rows. -/
theorem processResult_sessions (chId now : Nat) (acc : DB × List Payout) (r : RankedResult) :
    (processResult chId now acc r).1.sessions = acc.1.sessions := by
  unfold processResult
  by_cases h0 : (r.userId == 0) = true
  · simp [h0]
  · simp only [h0, Bool.false_eq_true, if_false]
    by_cases hxp : 0 < xpForRank r.rank r.participated
    · simp only [hxp, if_true]
      rw [(updateXp_preserves _ now r.userId _).1]
      show (if _ = true then _ else _ : DB).sessions = _
      split
      all_goals rfl
    · simp only [hxp, if_false]

/-- One finalize results-loop step keeps every per-(participant, session)
`blitz_challenge` count at most 1: the insert is guarded by the uniqueness
check. -/
theorem processResult_blitz_le (chId now u : Nat) (acc : DB × List Payout)
    (r : RankedResult) (h : blitzEventCount acc.1 u chId ≤ 1) :
    blitzEventCount (processResult chId now acc r).1 u chId ≤ 1 := by
  unfold processResult
  by_cases h0 : (r.userId == 0) = true
  · simpa [h0] using h
  · simp only [h0, Bool.false_eq_true, if_false]
    by_cases hxp : 0 < xpForRank r.rank r.participated
    · simp only [hxp, if_true]
      rw [(updateXp_preserves _ now r.userId _).2.2]
      by_cases hguard : (acc.1.xp_events.any (fun e =>
          e.user_id == r.userId && e.mode == "blitz_challenge"
            && e.challenge_id == some chId)) = true
      · simpa [hguard, blitzEventCount] using h
      · simp only [hguard, Bool.false_eq_true, if_false]
        by_cases huser : r.userId = u
        · subst huser
          have hnone : (acc.1.xp_events.filter (fun e =>
              e.user_id == r.userId && e.mode == "blitz_challenge"
                && e.challenge_id == some chId)) = [] := by
            rw [List.filter_eq_nil_iff]
            intro e he hpred
            rw [List.any_eq_true] at hguard
            exact hguard ⟨e, he, hpred⟩
          simp only [blitzEventCount, List.filter_append, List.length_append, hnone]
          simp
        · have hne : (r.userId == u) = false := by
            cases hbe : (r.userId == u)
            · rfl
            · exact absurd (by simpa using hbe) huser
          simp only [blitzEventCount, List.filter_append, List.length_append]
          simpa [blitzEventCount, hne] using h
    · simpa [hxp] using h

/-- The finalized-flag update applied by the finalize route before paying. -/
def setFinalizedDb (db : DB) (chId : Nat) : DB :=
  { db with sessions := db.sessions.map (fun s =>
      if s.id == chId then { s with is_finalized := true } else s) }

/-- What a finalize that returned payouts guarantees about its inputs and
its result. -/
theorem finalize_done_elim (db : DB) (now : Nat) (user : User) (chId : Nat)
    (rs : List RankedResult) (ps : List Payout)
    (h : (finalizeChallenge db now user chId rs).out = .ok (.done ps)) :
    (chId == 0) = false ∧
    ∃ session, findSession db chId = some session ∧
      (session.host_user_id != user.id && user.role != "admin") = false ∧
      session.is_finalized = false ∧
      finalizeChallenge db now user chId rs =
        ⟨(rs.foldl (processResult chId now) (setFinalizedDb db chId, [])).1,
         [.broadcast chId],
         .ok (.done (rs.foldl (processResult chId now) (setFinalizedDb db chId, [])).2)⟩ := by
  revert h
  simp only [finalizeChallenge]
  split
  · intro h; simp at h
  · rename_i hch
    split
    · intro h; simp at h
    · rename_i session hfs
      split
      · intro h; simp at h
      · rename_i hauth
        split
        · intro h; simp at h
        · rename_i hfin
          intro h
          refine ⟨by simpa using hch, session, hfs, by simpa using hauth,
            by simpa using hfin, rfl⟩

/-- C2: once a finalize has paid out, every (participant, session) pair
holds at most one `challenge_rank` ledger row, and any further finalize on
the same session is answered with the 409 conflict, changing nothing — so
the counts stay at most one. -/
theorem finalize_single_settlement (db : DB) (now now2 : Nat) (user : User) (chId : Nat)
    (rs rs2 : List RankedResult) (ps : List Payout)
    (h0 : ∀ u, blitzEventCount db u chId = 0)
    (h1 : (finalizeChallenge db now user chId rs).out = .ok (.done ps)) :
    (∀ u, blitzEventCount (finalizeChallenge db now user chId rs).db u chId ≤ 1) ∧
    finalizeChallenge (finalizeChallenge db now user chId rs).db now2 user chId rs2 =
      ⟨(finalizeChallenge db now user chId rs).db, [], .ok .conflict⟩ ∧
    (∀ u, blitzEventCount (finalizeChallenge (finalizeChallenge db now user chId rs).db
        now2 user chId rs2).db u chId ≤ 1) := by
  obtain ⟨hch, session, hfs, hauth, hfin, heq⟩ :=
    finalize_done_elim db now user chId rs ps h1
  have hr1db : (finalizeChallenge db now user chId rs).db =
      (rs.foldl (processResult chId now) (setFinalizedDb db chId, [])).1 := by rw [heq]
  have hcount1 : ∀ u, blitzEventCount (rs.foldl (processResult chId now)
      (setFinalizedDb db chId, [])).1 u chId ≤ 1 := by
    intro u
    have hstart : blitzEventCount (setFinalizedDb db chId) u chId ≤ 1 := by
      have hz : blitzEventCount (setFinalizedDb db chId) u chId = blitzEventCount db u chId := rfl
      rw [hz, h0 u]
      omega
    exact foldl_preserve (processResult chId now)
      (fun acc => blitzEventCount acc.1 u chId ≤ 1)
      (fun acc r hacc => processResult_blitz_le chId now u acc r hacc) rs _ hstart
  have hsess1 : (rs.foldl (processResult chId now) (setFinalizedDb db chId, [])).1.sessions =
      (setFinalizedDb db chId).sessions :=
    foldl_preserve (processResult chId now)
      (fun acc => acc.1.sessions = (setFinalizedDb db chId).sessions)
      (fun acc r hacc => by
        show (processResult chId now acc r).1.sessions = (setFinalizedDb db chId).sessions
        rw [processResult_sessions]
        exact hacc) rs _ rfl
  have hsid : (session.id == chId) = true := by
    have h2 := List.find?_some
      (show db.sessions.find? (fun x => x.id == chId) = some session from hfs)
    exact h2
  have hfs2 : findSession (finalizeChallenge db now user chId rs).db chId =
      some { session with is_finalized := true } := by
    rw [hr1db]
    unfold findSession
    rw [hsess1]
    show (db.sessions.map _).find? _ = _
    rw [find?_map_comm db.sessions _ (fun x => x.id == chId) ?hpres5,
      show db.sessions.find? (fun x => x.id == chId) = some session from hfs]
    · have hs3 : session.id = chId := by simpa using hsid
      simp [hs3]
    case hpres5 =>
      intro a
      by_cases ha : (a.id == chId) = true <;> simp [ha]
  have hconf : finalizeChallenge (finalizeChallenge db now user chId rs).db now2 user chId rs2 =
      ⟨(finalizeChallenge db now user chId rs).db, [], .ok .conflict⟩ := by
    set dbR := (finalizeChallenge db now user chId rs).db with hdbR
    simp only [finalizeChallenge, hch, Bool.false_eq_true, if_false, hfs2]
    have hauth2 : ¬((session.host_user_id != user.id && user.role != "admin") = true) := by
      simp [hauth]
    rw [if_neg hauth2]
    simp
  refine ⟨?_, hconf, ?_⟩
  · intro u
    rw [hr1db]
    exact hcount1 u
  · intro u
    rw [hconf, hr1db]
    exact hcount1 u

/-- Witness for C2 at a concrete single-participant settlement. -/
theorem finalize_single_settlement_witness :
    (∀ u, blitzEventCount (finalizeChallenge baseDB 200 hostUser 1 [⟨21, 1, true⟩]).db u 1 ≤ 1) ∧
    finalizeChallenge (finalizeChallenge baseDB 200 hostUser 1 [⟨21, 1, true⟩]).db 201 hostUser 1
        [⟨21, 1, true⟩] =
      ⟨(finalizeChallenge baseDB 200 hostUser 1 [⟨21, 1, true⟩]).db, [], .ok .conflict⟩ ∧
    (∀ u, blitzEventCount (finalizeChallenge
        (finalizeChallenge baseDB 200 hostUser 1 [⟨21, 1, true⟩]).db 201 hostUser 1
        [⟨21, 1, true⟩]).db u 1 ≤ 1) :=
  finalize_single_settlement baseDB 200 201 hostUser 1 [⟨21, 1, true⟩] [⟨21, 1, true⟩]
    [⟨21, 1, 10⟩] (fun _ => rfl) rfl

/-! ### C9: goal completion timestamp and bonus at most once -/

/-- Completion timestamp of the (goal, participant) submission row. -/
def completedAtOf (db : DB) (aid uid : Nat) : Option Nat :=
  match findSubmission db aid uid with
  | some s => s.completed_at
  | none => none

/-- Count of goal-bonus ledger rows for one (goal, participant):
`assignment`-mode events tied to this assignment. -/
def bonusEventCount (db : DB) (aid uid : Nat) : Nat :=
  (db.xp_events.filter (fun e => e.user_id == uid && e.mode == "assignment"
    && e.assignment_id == some aid)).length

/-- Completion timestamp as read from a query snapshot. -/
def snapCompletedOf : Option Submission → Option Nat
  | some s => s.completed_at
  | none => none

/-- Appending an element that fails the predicate does not change `find?`. -/
theorem find?_append_not {α : Type} (l : List α) (x : α) (p : α → Bool)
    (hx : p x = false) : (l ++ [x]).find? p = l.find? p := by
  induction l with
  | nil =>
    simp only [List.nil_append]
    rw [List.find?_cons_of_neg]
    simp [hx]
  | cons a l ih =>
    cases ha : p a with
    | false =>
      rw [List.cons_append, List.find?_cons_of_neg, List.find?_cons_of_neg]
      · exact ih
      · simp [ha]
      · simp [ha]
    | true =>
      rw [List.cons_append, List.find?_cons_of_pos, List.find?_cons_of_pos]
      · simp [ha]
      · simp [ha]

/-- Appending a matching element to a list with no match makes it the find. -/
theorem find?_append_of_none {α : Type} (l : List α) (x : α) (p : α → Bool)
    (hl : l.find? p = none) (hx : p x = true) : (l ++ [x]).find? p = some x := by
  induction l with
  | nil =>
    simp only [List.nil_append]
    rw [List.find?_cons_of_pos]
    exact hx
  | cons a l ih =>
    cases ha : p a with
    | false =>
      rw [List.find?_cons_of_neg] at hl
      · rw [List.cons_append, List.find?_cons_of_neg]
        · exact ih hl
        · simp [ha]
      · simp [ha]
    | true =>
      rw [List.find?_cons_of_pos] at hl
      · exact Option.noConfusion hl
      · simp [ha]

/-- A rollup step for a different goal does not touch this goal's submission
row or bonus events. -/
theorem processAssignment_other (uid : Nat) (x : Int) (now : Nat) (db : DB)
    (item : Assignment × Option Submission) (aid : Nat) (hne : item.1.id ≠ aid) :
    findSubmission (processAssignment uid x now db item) aid uid = findSubmission db aid uid ∧
    bonusEventCount (processAssignment uid x now db item) aid uid
      = bonusEventCount db aid uid := by
  have hbne : (aid == item.1.id) = false := by simp [Ne.symm hne]
  have hopt : ((some item.1.id : Option Nat) == some aid) = false := by simp [hne]
  have hsub : ∀ dbx : DB,
      findSubmission { dbx with submissions := dbx.submissions.map (fun s =>
        if s.assignment_id == item.1.id && s.student_id == uid then
          { s with
            xp_earned := s.xp_earned + x
            completed_at :=
              if item.1.xp_goal.getD 0 ≤ s.xp_earned + x && s.completed_at == none
              then some now else s.completed_at }
        else s) } aid uid = findSubmission dbx aid uid := by
    intro dbx
    unfold findSubmission
    rw [find?_map_comm dbx.submissions _ _ ?hpres6]
    · cases hf : dbx.submissions.find?
          (fun s => s.assignment_id == aid && s.student_id == uid) with
      | none => rfl
      | some r =>
        have hr := List.find?_some hf
        simp only [Bool.and_eq_true, beq_iff_eq] at hr
        have hcond : (r.assignment_id == item.1.id && r.student_id == uid) = false := by
          rw [hr.1]
          simp [hbne]
        simp only [Option.map_some', hcond, Bool.false_eq_true, if_false]
    case hpres6 =>
      intro a
      by_cases hc : (a.assignment_id == item.1.id && a.student_id == uid) = true <;>
        simp [hc]
  have hins : ∀ dbx : DB, ∀ xp : Int, ∀ ts : Option Nat,
      findSubmission { dbx with submissions := dbx.submissions ++
        [{ assignment_id := item.1.id, student_id := uid, xp_earned := xp
           completed_at := ts }] } aid uid = findSubmission dbx aid uid := by
    intro dbx xp ts
    unfold findSubmission
    rw [find?_append_not]
    simp [hne]
  constructor
  · simp only [processAssignment]
    split
    · split
      · exact hins db _ _
      · exact hsub db
    · split
      · exact hins db _ _
      · exact hsub db
  · simp only [processAssignment, bonusEventCount]
    split
    · split <;> simp [List.filter_append, hopt]
    · split <;> rfl

/-- A rollup step for this goal whose query snapshot already shows a
completion timestamp: the stored timestamp is kept and no bonus is issued. -/
theorem processAssignment_aid_completed (uid : Nat) (x : Int) (now : Nat) (db : DB)
    (item : Assignment × Option Submission) (aid : Nat) (t : Nat)
    (hid : item.1.id = aid)
    (hsnap : snapCompletedOf item.2 ≠ none)
    (hc : completedAtOf db aid uid = some t) :
    completedAtOf (processAssignment uid x now db item) aid uid = some t ∧
    bonusEventCount (processAssignment uid x now db item) aid uid
      = bonusEventCount db aid uid := by
  obtain ⟨cur, hcur, hcurc⟩ : ∃ cur, findSubmission db aid uid = some cur ∧
      cur.completed_at = some t := by
    unfold completedAtOf at hc
    cases hf : findSubmission db aid uid with
    | none => rw [hf] at hc; exact Option.noConfusion hc
    | some cur => rw [hf] at hc; exact ⟨cur, rfl, hc⟩
  have hguard : ((match item.2 with | some s => s.completed_at | none => none) ==
      (none : Option Nat)) = false := by
    have hsnap' : (match item.2 with | some s => s.completed_at | none => none) ≠
        (none : Option Nat) := hsnap
    cases hsn : (match item.2 with | some s => s.completed_at | none => none) with
    | none => exact absurd hsn hsnap'
    | some v => rfl
  have hkey := List.find?_some (show db.submissions.find?
    (fun s => s.assignment_id == aid && s.student_id == uid) = some cur from hcur)
  simp only [Bool.and_eq_true, beq_iff_eq] at hkey
  simp only [processAssignment, hid, hcur, hguard, Bool.and_false, Bool.false_and,
    Bool.false_eq_true, if_false]
  constructor
  · unfold completedAtOf findSubmission
    rw [find?_map_comm db.submissions _ _ ?hpres7,
      show db.submissions.find?
        (fun s => s.assignment_id == aid && s.student_id == uid) = some cur from hcur]
    · have hcond : (cur.assignment_id == aid && cur.student_id == uid) = true := by
        simp [hkey.1, hkey.2]
      simp only [Option.map_some', hcond, if_true]
      simp [hcurc]
    case hpres7 =>
      intro a
      by_cases hca : (a.assignment_id == aid && a.student_id == uid) = true <;> simp [hca]
  · rfl

/-- A rollup step for this goal from a not-yet-completed state with an
accurate snapshot: at most one bonus appears, and only together with a
newly set completion timestamp. -/
theorem processAssignment_aid_fresh (uid : Nat) (x : Int) (now : Nat) (db : DB)
    (item : Assignment × Option Submission) (aid : Nat)
    (hid : item.1.id = aid)
    (hsnap : item.2 = findSubmission db aid uid)
    (hc : completedAtOf db aid uid = none)
    (hb : bonusEventCount db aid uid = 0) :
    bonusEventCount (processAssignment uid x now db item) aid uid ≤ 1 ∧
    (completedAtOf (processAssignment uid x now db item) aid uid = none →
      bonusEventCount (processAssignment uid x now db item) aid uid = 0) := by
  have hrowpred : ∀ xp : Int, ∀ ts : Option Nat,
      ((fun s => s.assignment_id == aid && s.student_id == uid)
        ({ assignment_id := aid, student_id := uid, xp_earned := xp
           completed_at := ts } : Submission)) = true := by
    intro xp ts
    simp
  have hevpred : ∀ v : Int,
      ((fun e => e.user_id == uid && e.mode == "assignment" && e.assignment_id == some aid)
        ({ user_id := uid, mode := "assignment", xp_earned := v, challenge_id := none
           assignment_id := some aid } : XpEvent)) = true := by
    intro v
    simp
  cases hf : findSubmission db aid uid with
  | none =>
    simp only [processAssignment, hid, hsnap, hf]
    split
    · rename_i hg
      simp only [Bool.and_eq_true, decide_eq_true_iff] at hg
      constructor
      · simp only [bonusEventCount, List.filter_append, List.length_append]
        simp only [bonusEventCount] at hb
        rw [hb]
        simp
      · intro hnone
        exfalso
        unfold completedAtOf findSubmission at hnone
        rw [find?_append_of_none _ _ _ hf (hrowpred _ _)] at hnone
        simp at hnone
        have hle := hg.1.1
        omega
    · constructor
      · simp only [bonusEventCount]
        simp only [bonusEventCount] at hb
        omega
      · intro _
        exact hb
  | some cur =>
    have hcurc : cur.completed_at = none := by
      unfold completedAtOf at hc
      rw [hf] at hc
      exact hc
    have hkey := List.find?_some (show db.submissions.find?
      (fun s => s.assignment_id == aid && s.student_id == uid) = some cur from hf)
    simp only [Bool.and_eq_true, beq_iff_eq] at hkey
    have hcond : (cur.assignment_id == aid && cur.student_id == uid) = true := by
      simp [hkey.1, hkey.2]
    simp only [processAssignment, hid, hsnap, hf]
    split
    · rename_i hg
      simp only [Bool.and_eq_true, decide_eq_true_iff] at hg
      constructor
      · simp only [bonusEventCount, List.filter_append, List.length_append]
        simp only [bonusEventCount] at hb
        rw [hb]
        simp
      · intro hnone
        exfalso
        unfold completedAtOf findSubmission at hnone
        rw [find?_map_comm db.submissions _ _ ?hpres8,
          show db.submissions.find?
            (fun s => s.assignment_id == aid && s.student_id == uid) = some cur from hf]
          at hnone
        · simp [hcond, hkey.1, hkey.2, hcurc, hg.1.1] at hnone
        case hpres8 =>
          intro a
          by_cases hca : (a.assignment_id == aid && a.student_id == uid) = true <;> simp [hca]
    · constructor
      · simp only [bonusEventCount]
        simp only [bonusEventCount] at hb
        omega
      · intro _
        exact hb

/-- Equal submission lookups give equal completion timestamps. -/
theorem completedAtOf_congr (d1 d2 : DB) (aid uid : Nat)
    (h : findSubmission d1 aid uid = findSubmission d2 aid uid) :
    completedAtOf d1 aid uid = completedAtOf d2 aid uid := by
  unfold completedAtOf
  rw [h]

/-- A rollup pass over items for other goals leaves this goal's data
untouched. -/
theorem fold_other (uid aid : Nat) (x : Int) (now : Nat) :
    ∀ (items : List (Assignment × Option Submission)) (db : DB),
      (∀ it ∈ items, it.1.id ≠ aid) →
      findSubmission (items.foldl (processAssignment uid x now) db) aid uid
        = findSubmission db aid uid ∧
      bonusEventCount (items.foldl (processAssignment uid x now) db) aid uid
        = bonusEventCount db aid uid := by
  intro items
  induction items with
  | nil => intro db _; exact ⟨rfl, rfl⟩
  | cons it rest ih =>
    intro db hno
    simp only [List.foldl_cons]
    obtain ⟨h1, h2⟩ := processAssignment_other uid x now db it aid
      (hno it (List.mem_cons_self it rest))
    obtain ⟨h3, h4⟩ := ih (processAssignment uid x now db it)
      (fun j hj => hno j (List.mem_cons_of_mem it hj))
    exact ⟨h3.trans h1, h4.trans h2⟩

/-- A rollup pass whose aid snapshots all show completion keeps the stored
timestamp and the bonus count. -/
theorem fold_completed_stable (uid aid : Nat) (x : Int) (now : Nat) (t : Nat) :
    ∀ (items : List (Assignment × Option Submission)) (db : DB),
      (∀ it ∈ items, it.1.id = aid → snapCompletedOf it.2 ≠ none) →
      completedAtOf db aid uid = some t →
      completedAtOf (items.foldl (processAssignment uid x now) db) aid uid = some t ∧
      bonusEventCount (items.foldl (processAssignment uid x now) db) aid uid
        = bonusEventCount db aid uid := by
  intro items
  induction items with
  | nil => intro db _ hc; exact ⟨hc, rfl⟩
  | cons it rest ih =>
    intro db hsn hc
    simp only [List.foldl_cons]
    by_cases hid : it.1.id = aid
    · obtain ⟨h1, h2⟩ := processAssignment_aid_completed uid x now db it aid t hid
        (hsn it (List.mem_cons_self it rest) hid) hc
      obtain ⟨h3, h4⟩ := ih (processAssignment uid x now db it)
        (fun j hj => hsn j (List.mem_cons_of_mem it hj)) h1
      exact ⟨h3, h4.trans h2⟩
    · obtain ⟨h1, h2⟩ := processAssignment_other uid x now db it aid hid
      have hc' : completedAtOf (processAssignment uid x now db it) aid uid = some t := by
        rw [completedAtOf_congr _ db _ _ h1]
        exact hc
      obtain ⟨h3, h4⟩ := ih _ (fun j hj => hsn j (List.mem_cons_of_mem it hj)) hc'
      exact ⟨h3, h4.trans h2⟩

/-- A rollup pass from a not-yet-completed state with accurate snapshots and
at most one item for this goal issues at most one bonus, and none at all
unless the timestamp was set. -/
theorem fold_fresh (uid aid : Nat) (x : Int) (now : Nat) :
    ∀ (items : List (Assignment × Option Submission)) (db : DB),
      ((items.filter (fun it => it.1.id == aid)).length ≤ 1) →
      (∀ it ∈ items, it.1.id = aid → it.2 = findSubmission db aid uid) →
      completedAtOf db aid uid = none →
      bonusEventCount db aid uid = 0 →
      bonusEventCount (items.foldl (processAssignment uid x now) db) aid uid ≤ 1 ∧
      (completedAtOf (items.foldl (processAssignment uid x now) db) aid uid = none →
        bonusEventCount (items.foldl (processAssignment uid x now) db) aid uid = 0) := by
  intro items
  induction items with
  | nil =>
    intro db _ _ hcn hb
    simp only [List.foldl_nil]
    exact ⟨by rw [hb]; omega, fun _ => hb⟩
  | cons it rest ih =>
    intro db hded hsnap hcn hb
    simp only [List.foldl_cons]
    by_cases hid : it.1.id = aid
    · have hrest : ∀ j ∈ rest, j.1.id ≠ aid := by
        intro j hj hjid
        have h1 : (it.1.id == aid) = true := by simp [hid]
        have h2 : (j.1.id == aid) = true := by simp [hjid]
        have hlen : 1 + (rest.filter (fun it => it.1.id == aid)).length ≤ 1 := by
          simpa [List.filter_cons, h1, Nat.add_comm] using hded
        have hzero : (rest.filter (fun it => it.1.id == aid)).length = 0 := by omega
        have hmemf : j ∈ rest.filter (fun it => it.1.id == aid) :=
          List.mem_filter.mpr ⟨hj, h2⟩
        rw [List.length_eq_zero] at hzero
        rw [hzero] at hmemf
        exact List.not_mem_nil j hmemf
      obtain ⟨hb1, hb2⟩ := processAssignment_aid_fresh uid x now db it aid hid
        (hsnap it (List.mem_cons_self it rest) hid) hcn hb
      obtain ⟨h3, h4⟩ := fold_other uid aid x now rest (processAssignment uid x now db it) hrest
      constructor
      · rw [h4]
        exact hb1
      · intro hnone
        rw [h4]
        apply hb2
        rw [completedAtOf_congr _ _ _ _ h3] at hnone
        exact hnone
    · obtain ⟨h1, h2⟩ := processAssignment_other uid x now db it aid hid
      have hded' : (rest.filter (fun it => it.1.id == aid)).length ≤ 1 := by
        have hx1 : (it.1.id == aid) = false := by simp [hid]
        simpa [List.filter_cons, hx1] using hded
      have hsnap' : ∀ j ∈ rest, j.1.id = aid →
          j.2 = findSubmission (processAssignment uid x now db it) aid uid := by
        intro j hj hjid
        rw [h1]
        exact hsnap j (List.mem_cons_of_mem it hj) hjid
      have hcn' : completedAtOf (processAssignment uid x now db it) aid uid = none := by
        rw [completedAtOf_congr _ db _ _ h1]
        exact hcn
      have hb' : bonusEventCount (processAssignment uid x now db it) aid uid = 0 := by
        rw [h2]
        exact hb
      exact ih _ hded' hsnap' hcn' hb'

/-- Snapshots taken by the rollup query agree with `completedAtOf`. -/
theorem snapCompletedOf_find (db : DB) (i u : Nat) :
    snapCompletedOf (findSubmission db i u) = completedAtOf db i u := by
  cases h : findSubmission db i u <;> simp [snapCompletedOf, completedAtOf, h]

/-- Filtering pairs built by the rollup query counts the same as filtering
the underlying assignments. -/
theorem filter_map_pair_length (l : List Assignment)
    (f : Assignment → Assignment × Option Submission) (hf : ∀ a, (f a).1 = a) (aid : Nat) :
    ((l.map f).filter (fun it => it.1.id == aid)).length =
      (l.filter (fun a => a.id == aid)).length := by
  induction l with
  | nil => rfl
  | cons a l ih =>
    simp only [List.map_cons, List.filter_cons, hf a]
    cases ha : (a.id == aid) <;> simp [ha, ih]

/-- Filtering a filtered list never yields more matches. -/
theorem filter_filter_length_le {α : Type} (p q : α → Bool) (l : List α) :
    ((l.filter q).filter p).length ≤ (l.filter p).length :=
  List.Sublist.length_le (List.Sublist.filter p (List.filter_sublist l))

/-- A completed goal stays completed across a whole rollup call, with no new
bonus. -/
theorem updateXp_completed_stable (db : DB) (now uid : Nat) (x : Int) (aid t : Nat)
    (hc : completedAtOf db aid uid = some t) :
    completedAtOf (updateAssignmentXpProgress db now uid x) aid uid = some t ∧
    bonusEventCount (updateAssignmentXpProgress db now uid x) aid uid
      = bonusEventCount db aid uid := by
  unfold updateAssignmentXpProgress
  apply fold_completed_stable uid aid x now t _ db _ hc
  intro it hmem hitid
  obtain ⟨a, hamem, haeq⟩ := List.mem_map.mp hmem
  subst haeq
  have haid : a.id = aid := hitid
  show snapCompletedOf (findSubmission db a.id uid) ≠ none
  rw [snapCompletedOf_find, haid, hc]
  simp

/-- From a not-yet-completed state a whole rollup call issues at most one
bonus, and none unless the completion timestamp was set — given at most one
assignment row for this goal. -/
theorem updateXp_fresh (db : DB) (now uid : Nat) (x : Int) (aid : Nat)
    (hdedup : (db.assignments.filter (fun a => a.id == aid)).length ≤ 1)
    (hcn : completedAtOf db aid uid = none) (hb : bonusEventCount db aid uid = 0) :
    bonusEventCount (updateAssignmentXpProgress db now uid x) aid uid ≤ 1 ∧
    (completedAtOf (updateAssignmentXpProgress db now uid x) aid uid = none →
      bonusEventCount (updateAssignmentXpProgress db now uid x) aid uid = 0) := by
  unfold updateAssignmentXpProgress
  apply fold_fresh uid aid x now _ db ?hd ?hs hcn hb
  case hd =>
    rw [filter_map_pair_length _ _ (fun a => rfl) aid]
    exact le_trans (filter_filter_length_le _ _ db.assignments) hdedup
  case hs =>
    intro it hmem hitid
    obtain ⟨a, hamem, haeq⟩ := List.mem_map.mp hmem
    subst haeq
    have haid : a.id = aid := hitid
    show findSubmission db a.id uid = findSubmission db aid uid
    rw [haid]

/-- C9: starting from a goal with no completion timestamp and no bonus, any
sequence of settlement calls crediting the participant sets the completion
timestamp at most once (once set it never changes), and issues the bonus
RewardEvent at most once — and only together with the timestamp. -/
theorem goal_completion_and_bonus_once (db : DB) (uid aid : Nat) (calls : List (Nat × Int))
    (hdedup : (db.assignments.filter (fun a => a.id == aid)).length ≤ 1)
    (hfresh : completedAtOf db aid uid = none)
    (hbonus : bonusEventCount db aid uid = 0) :
    bonusEventCount
      (calls.foldl (fun d c => updateAssignmentXpProgress d c.1 uid c.2) db) aid uid ≤ 1 ∧
    (completedAtOf (calls.foldl (fun d c => updateAssignmentXpProgress d c.1 uid c.2) db) aid uid
        = none →
      bonusEventCount (calls.foldl (fun d c => updateAssignmentXpProgress d c.1 uid c.2) db)
        aid uid = 0) ∧
    (∀ (t now2 : Nat) (x2 : Int),
      completedAtOf (calls.foldl (fun d c => updateAssignmentXpProgress d c.1 uid c.2) db) aid uid
        = some t →
      completedAtOf (updateAssignmentXpProgress
        (calls.foldl (fun d c => updateAssignmentXpProgress d c.1 uid c.2) db) now2 uid x2)
        aid uid = some t ∧
      bonusEventCount (updateAssignmentXpProgress
        (calls.foldl (fun d c => updateAssignmentXpProgress d c.1 uid c.2) db) now2 uid x2)
        aid uid = bonusEventCount
          (calls.foldl (fun d c => updateAssignmentXpProgress d c.1 uid c.2) db) aid uid) := by
  have hP := foldl_preserve (fun d c => updateAssignmentXpProgress d c.1 uid c.2)
    (fun d => d.assignments = db.assignments ∧
      ((completedAtOf d aid uid = none ∧ bonusEventCount d aid uid = 0) ∨
        (∃ t, completedAtOf d aid uid = some t ∧ bonusEventCount d aid uid ≤ 1)))
    ?step calls db ⟨rfl, .inl ⟨hfresh, hbonus⟩⟩
  case step =>
    intro d c hd
    obtain ⟨hassign, hinv⟩ := hd
    constructor
    · show (updateAssignmentXpProgress d c.1 uid c.2).assignments = db.assignments
      rw [(updateXp_preserves d c.1 uid c.2).2.1]
      exact hassign
    · rcases hinv with ⟨hn, hz⟩ | ⟨t, hs, hle⟩
      · have hded : (d.assignments.filter (fun a => a.id == aid)).length ≤ 1 := by
          rw [hassign]
          exact hdedup
        obtain ⟨hb1, hb2⟩ := updateXp_fresh d c.1 uid c.2 aid hded hn hz
        cases hafter : completedAtOf (updateAssignmentXpProgress d c.1 uid c.2) aid uid with
        | none => exact .inl ⟨rfl, hb2 hafter⟩
        | some t2 => exact .inr ⟨t2, rfl, hb1⟩
      · obtain ⟨h1, h2⟩ := updateXp_completed_stable d c.1 uid c.2 aid t hs
        exact .inr ⟨t, h1, by rw [h2]; exact hle⟩
  obtain ⟨hassignF, hinvF⟩ := hP
  refine ⟨?_, ?_, ?_⟩
  · rcases hinvF with ⟨-, hz⟩ | ⟨t, -, hle⟩
    · rw [hz]
      omega
    · exact hle
  · intro hnone
    rcases hinvF with ⟨-, hz⟩ | ⟨t, hs, -⟩
    · exact hz
    · rw [hs] at hnone
      exact Option.noConfusion hnone
  · intro t now2 x2 hsome
    exact updateXp_completed_stable _ now2 uid x2 aid t hsome

/-- `baseDB` with an XP-goal assignment (threshold 10, bonus 5) in a
classroom the guest belongs to. -/
def dbGoal : DB :=
  { baseDB with assignments := [⟨50, 60, some 10, some 5⟩], memberships := [⟨60, 8, true⟩] }

/-- Witness for C9: three settlement calls of 6 XP each cross the threshold
once and trigger at most one bonus. -/
theorem goal_completion_and_bonus_once_witness :
    bonusEventCount
      (([(300, 6), (301, 6), (302, 6)] : List (Nat × Int)).foldl
        (fun d c => updateAssignmentXpProgress d c.1 8 c.2) dbGoal) 50 8 ≤ 1 :=
  (goal_completion_and_bonus_once dbGoal 8 50 [(300, 6), (301, 6), (302, 6)]
    (by decide) rfl rfl).1

end SpanishBlitz
